import Mathlib

/-!
Shallow embedding of the CDP relay server of `dev-browser`
(`packages/cli/src` relay module, `serveRelay`).

The relay bridges one privileged browser-extension WebSocket to any number
of Patchright (automation-client) WebSockets.  Its state is a handful of
JS `Map`s plus the extension channel; the embedding models those maps as
association lists with JS `Map` semantics (insertion order preserved,
`set` updates in place, keys unique) and every handler as a pure function
from state to state together with the list of observable outputs (frames
written to sockets, socket closes, promise settlements, timer arms).
-/

namespace DevBrowser

/-- Mirrors the `TargetInfo` interface of the relay source. -/
structure TargetInfo where
  targetId : String
  type : String
  title : String
  url : String
  attached : Bool
deriving DecidableEq, Repr

/-- Mirrors the `ConnectedTarget` interface: one entry of the Target
Registry (`connectedTargets`), keyed by `sessionId`. -/
structure ConnectedTarget where
  sessionId : String
  targetId : String
  targetInfo : TargetInfo
deriving DecidableEq, Repr

/-! ### JS `Map` operations on association lists

A JS `Map` keeps entries in insertion order with unique keys; `set` on an
existing key updates the entry in place, otherwise appends; `delete`
removes the entry with the key (keys being unique, a filter). -/

/-- JS `Map.get`. -/
def mapGet (m : List (String × α)) (k : String) : Option α :=
  match m with
  | [] => none
  | (k2, v) :: rest => if k2 = k then some v else mapGet rest k

/-- JS `Map.has`. -/
def mapHas (m : List (String × α)) (k : String) : Bool :=
  (mapGet m k).isSome

/-- JS `Map.set`. -/
def mapSet (m : List (String × α)) (k : String) (v : α) : List (String × α) :=
  match m with
  | [] => [(k, v)]
  | (k2, v2) :: rest => if k2 = k then (k, v) :: rest else (k2, v2) :: mapSet rest k v

/-- JS `Map.delete` (keys of a `Map` are unique). -/
def mapDelete (m : List (String × α)) (k : String) : List (String × α) :=
  m.filter (fun p => p.1 ≠ k)

theorem mapGet_set_self (m : List (String × α)) (k : String) (v : α) :
    mapGet (mapSet m k v) k = some v := by
  induction m with
  | nil => simp [mapSet, mapGet]
  | cons p rest ih =>
    obtain ⟨k2, v2⟩ := p
    by_cases h : k2 = k
    · simp [mapSet, h, mapGet]
    · simp [mapSet, h, mapGet, ih]

theorem mapGet_set_other (m : List (String × α)) (k k2 : String) (v : α) (h : k2 ≠ k) :
    mapGet (mapSet m k v) k2 = mapGet m k2 := by
  have h2 : ¬k = k2 := fun hh => h hh.symm
  induction m with
  | nil => simp [mapSet, mapGet, h2]
  | cons p rest ih =>
    obtain ⟨k3, v3⟩ := p
    by_cases h3 : k3 = k
    · subst h3
      simp [mapSet, mapGet, h2]
    · simp [mapSet, mapGet, h3, ih]

theorem mapGet_delete (m : List (String × α)) (k k2 : String) :
    mapGet (mapDelete m k) k2 = if k2 = k then none else mapGet m k2 := by
  induction m with
  | nil => simp [mapDelete, mapGet]
  | cons p rest ih =>
    obtain ⟨k3, v3⟩ := p
    rw [show mapDelete ((k3, v3) :: rest) k =
        if k3 = k then mapDelete rest k else (k3, v3) :: mapDelete rest k from by
      by_cases h : k3 = k <;> simp [mapDelete, h]]
    by_cases h3 : k3 = k
    · rw [if_pos h3, ih]
      by_cases h4 : k2 = k
      · simp [h4]
      · have h5 : ¬k3 = k2 := by rw [h3]; exact fun hh => h4 hh.symm
        simp [mapGet, h4, h5]
    · rw [if_neg h3]
      by_cases h4 : k3 = k2
      · have h5 : ¬k2 = k := by rw [← h4]; exact h3
        simp [mapGet, h4, h5]
      · simp [mapGet, h4, ih]

theorem mapSet_of_not_has (m : List (String × α)) (k : String) (v : α)
    (h : mapHas m k = false) : mapSet m k v = m ++ [(k, v)] := by
  induction m with
  | nil => simp [mapSet]
  | cons p rest ih =>
    obtain ⟨k2, v2⟩ := p
    by_cases h2 : k2 = k
    · subst h2
      simp [mapHas, mapGet] at h
    · simp [mapHas, mapGet, h2] at h
      simp [mapSet, h2, ih (by simp [mapHas, h])]

theorem mapGet_append_left (m l : List (String × α)) (k : String)
    (h : mapHas m k = true) : mapGet (m ++ l) k = mapGet m k := by
  induction m with
  | nil => simp [mapHas, mapGet] at h
  | cons p rest ih =>
    obtain ⟨k2, v2⟩ := p
    by_cases h2 : k2 = k
    · simp [mapGet, h2]
    · simp [mapHas, mapGet, h2] at h
      simp [mapGet, h2, ih (by simp [mapHas, h])]

theorem mapGet_append_right (m l : List (String × α)) (k : String)
    (h : mapHas m k = false) : mapGet (m ++ l) k = mapGet l k := by
  induction m with
  | nil => simp
  | cons p rest ih =>
    obtain ⟨k2, v2⟩ := p
    by_cases h2 : k2 = k
    · subst h2
      simp [mapHas, mapGet] at h
    · simp [mapHas, mapGet, h2] at h
      simp [mapGet, h2, ih (by simp [mapHas, h])]

/-! ### Relay state and observable outputs -/

/-- The mutable state of `serveRelay`: the Target Registry
(`connectedTargets`, keyed by session id), the Named Page Directory
(`namedPages`, name to session id), the Client Registry
(`patchrightClients`, client id to its `knownTargets` set), whether the
extension channel is present (`extensionWs !== null`), the pending
correlated request ids, and the message-id counter. -/
structure RelayState where
  connectedTargets : List (String × ConnectedTarget)
  namedPages : List (String × String)
  patchrightClients : List (String × List String)
  extensionConnected : Bool
  extensionPendingRequests : List Nat
  extensionMessageId : Nat
deriving DecidableEq, Repr

/-- How a pending correlated request settles (the stored
`resolve`/`reject` continuations being invoked). -/
inductive Outcome where
  | resolved
  | rejected (message : String)
deriving DecidableEq, Repr

/-- Results produced locally by `routeCdpCommand` without contacting the
extension. -/
inductive CDPResult where
  | browserVersion
  | emptyObject
  | sessionIdResult (sessionId : String)
  | targetInfoResult (targetInfo : Option TargetInfo)
  | targetInfosResult (targetInfos : List TargetInfo)
deriving DecidableEq, Repr

/-- Parameters of a CDP command, restricted to the fields the relay ever
reads (`targetId`, `discover`, `url`). -/
structure CDPParams where
  targetId : Option String := none
  discover : Option Bool := none
  url : Option String := none
deriving DecidableEq, Repr

/-- The `params` object of an envelope written to the extension channel:
`{ sessionId?, method, params }` for `forwardCDPCommand`. -/
structure ForwardParams where
  method : Option String := none
  params : CDPParams := {}
  sessionId : Option String := none
deriving DecidableEq, Repr

/-- Frames written to one Patchright client socket. -/
inductive ClientMsg where
  | response (id : Nat) (sessionId : Option String) (result : CDPResult)
  | errorResponse (id : Nat) (sessionId : Option String) (message : String)
  | attachedToTarget (sessionId : String) (targetInfo : TargetInfo)
      (waitingForDebugger : Bool)
  | targetCreated (targetInfo : TargetInfo)
  | detachedFromTarget (sessionId : String)
  | targetInfoChanged (targetInfo : TargetInfo)
  | forwardedEvent (method : String) (sessionId : Option String)
deriving DecidableEq, Repr

/-- Observable effects of one handler invocation: socket writes, socket
closes, promise settlements and timer arms. -/
inductive Output where
  | toClient (clientId : String) (msg : ClientMsg)
  | toExtension (id : Nat) (method : String) (params : ForwardParams)
  | closeClient (clientId : String) (code : Nat) (reason : String)
  | closeExtension (code : Nat) (reason : String)
  | settle (id : Nat) (outcome : Outcome)
  | armTimeout (id : Nat) (ms : Nat) (method : String)
deriving DecidableEq, Repr

/-! ### Command correlation (`sendToExtension`) -/

/-- `sendToExtension`: allocate a fresh request id (`++extensionMessageId`),
write the `{id, method, params}` envelope to the extension channel, store
a pending-request record and arm the per-request timeout (default
`30_000` ms).  Callers guard on the extension being connected. -/
def sendToExtension (st : RelayState) (method : String) (params : ForwardParams)
    (timeout : Nat := 30000) : RelayState × List Output :=
  let id := st.extensionMessageId + 1
  ({ st with extensionMessageId := id,
             extensionPendingRequests := st.extensionPendingRequests ++ [id] },
   [Output.toExtension id method params, Output.armTimeout id timeout method])

/-- The timeout callback armed by `sendToExtension`: deletes the pending
record and rejects the promise with the timeout error. -/
def timeoutFire (st : RelayState) (id : Nat) (timeout : Nat) (method : String) :
    RelayState × List Output :=
  ({ st with extensionPendingRequests :=
      st.extensionPendingRequests.filter (fun j => j ≠ id) },
   [Output.settle id (Outcome.rejected
      ("Extension request timeout after " ++ toString timeout ++ "ms: " ++ method))])

/-! ### Target Registry and Named Page Directory updates -/

/-- `Target.attachedToTarget` ingestion: upsert into the Target Registry. -/
def applyAttach (targets : List (String × ConnectedTarget)) (sessionId : String)
    (info : TargetInfo) : List (String × ConnectedTarget) :=
  mapSet targets sessionId ⟨sessionId, info.targetId, info⟩

/-- The `for (const [name, sid] of namedPages) ... break` loop of the
detach handler: remove the first directory entry bound to `sid`. -/
def deleteFirstNameFor (pages : List (String × String)) (sid : String) :
    List (String × String) :=
  match pages with
  | [] => []
  | (n, s) :: rest => if s = sid then rest else (n, s) :: deleteFirstNameFor rest sid

/-- `Target.detachedFromTarget` ingestion: drop the registry entry and the
first directory entry bound to the detached session. -/
def applyDetach (targets : List (String × ConnectedTarget))
    (pages : List (String × String)) (sid : String) :
    List (String × ConnectedTarget) × List (String × String) :=
  (mapDelete targets sid, deleteFirstNameFor pages sid)

/-- `Target.targetInfoChanged` ingestion: mutate the first registry entry
whose `targetId` matches (the loop breaks after the first match). -/
def applyInfoChanged (targets : List (String × ConnectedTarget)) (info : TargetInfo) :
    List (String × ConnectedTarget) :=
  match targets with
  | [] => []
  | (sid, t) :: rest =>
    if t.targetId = info.targetId then (sid, { t with targetInfo := info }) :: rest
    else (sid, t) :: applyInfoChanged rest info

/-- `Array.from(connectedTargets.values()).find(item => item.targetId === targetId)`. -/
def findByTargetId (targets : List (String × ConnectedTarget)) (targetId : String) :
    Option ConnectedTarget :=
  (targets.map (fun p => p.2)).find? (fun t => t.targetId == targetId)

/-- The `for (const [sessionId, target] of connectedTargets)` scan of the
page-creation handler: first entry whose target has the given `targetId`. -/
def findEntryByTargetId (targets : List (String × ConnectedTarget)) (targetId : String) :
    Option (String × ConnectedTarget) :=
  targets.find? (fun p => p.2.targetId == targetId)

/-! ### Notification helpers -/

/-- One client of `sendAttachedToTarget`: send `Target.attachedToTarget`
unless the client already knows the target, and record it as known. -/
def notifyClient (client : String × List String) (target : ConnectedTarget)
    (waitingForDebugger : Bool) : (String × List String) × List Output :=
  if client.2.contains target.targetId then (client, [])
  else ((client.1, client.2 ++ [target.targetId]),
        [Output.toClient client.1 (ClientMsg.attachedToTarget target.sessionId
            { target.targetInfo with attached := true } waitingForDebugger)])

/-- The broadcast arm of `sendAttachedToTarget`: every connected client,
in registry order, deduplicated per client. -/
def broadcastAttached (clients : List (String × List String))
    (target : ConnectedTarget) (waitingForDebugger : Bool) :
    List (String × List String) × List Output :=
  match clients with
  | [] => ([], [])
  | c :: rest =>
    let r := notifyClient c target waitingForDebugger
    let rr := broadcastAttached rest target waitingForDebugger
    (r.1 :: rr.1, r.2 ++ rr.2)

/-- `sendAttachedToTarget(target, clientId?, waitingForDebugger = false)`. -/
def sendAttachedToTarget (clients : List (String × List String))
    (target : ConnectedTarget) (clientId : Option String)
    (waitingForDebugger : Bool := false) :
    List (String × List String) × List Output :=
  match clientId with
  | some cid =>
    match mapGet clients cid with
    | none => (clients, [])
    | some known =>
      let r := notifyClient (cid, known) target waitingForDebugger
      (mapSet clients cid r.1.2, r.2)
  | none => broadcastAttached clients target waitingForDebugger

/-- `sendToPatchright(message, clientId)` with a client id: write to that
client if it is registered. -/
def sendToClient (clients : List (String × List String)) (clientId : String)
    (msg : ClientMsg) : List Output :=
  match mapGet clients clientId with
  | some _ => [Output.toClient clientId msg]
  | none => []

/-- `sendToPatchright(message)` without a client id: write to every
registered client. -/
def sendToAllClients (clients : List (String × List String)) (msg : ClientMsg) :
    List Output :=
  clients.map (fun c => Output.toClient c.1 msg)

/-! ### Command routing (`routeCdpCommand`) -/

/-- Outcome of `routeCdpCommand`: a locally emulated result, or a command
to forward to the extension (`Target.createTarget`/`Target.closeTarget`
forward without a session id, the default arm forwards with it). -/
inductive RouteAction where
  | localResult (result : CDPResult)
  | forward (sessionId : Option String) (method : String) (params : CDPParams)
deriving DecidableEq, Repr

/-- `routeCdpCommand({method, params, sessionId})`: the emulation switch. -/
def routeCdpCommand (targets : List (String × ConnectedTarget)) (method : String)
    (params : CDPParams) (sessionId : Option String) : RouteAction :=
  if method = "Browser.getVersion" then
    RouteAction.localResult CDPResult.browserVersion
  else if method = "Target.setDiscoverTargets" ∨ method = "Target.setAutoAttach" ∨
      method = "Target.getBrowserContexts" ∨ method = "Target.createBrowserContext" then
    RouteAction.localResult CDPResult.emptyObject
  else if method = "Target.attachToBrowserTarget" then
    RouteAction.localResult (CDPResult.sessionIdResult "browser")
  else if method = "Target.attachToTarget" then
    match params.targetId with
    | some tid =>
      match findByTargetId targets tid with
      | some t => RouteAction.localResult (CDPResult.sessionIdResult t.sessionId)
      | none => RouteAction.localResult CDPResult.emptyObject
    | none => RouteAction.localResult CDPResult.emptyObject
  else if method = "Target.getTargetInfo" then
    match params.targetId with
    | some tid =>
      match findByTargetId targets tid with
      | some t => RouteAction.localResult (CDPResult.targetInfoResult (some t.targetInfo))
      | none =>
        RouteAction.localResult
          (CDPResult.targetInfoResult (targets.head?.map (fun p => p.2.targetInfo)))
    | none =>
      RouteAction.localResult
        (CDPResult.targetInfoResult (targets.head?.map (fun p => p.2.targetInfo)))
  else if method = "Target.getTargets" then
    RouteAction.localResult (CDPResult.targetInfosResult
      (targets.map (fun p => { p.2.targetInfo with attached := true })))
  else if method = "Target.createTarget" ∨ method = "Target.closeTarget" then
    RouteAction.forward none method params
  else
    RouteAction.forward sessionId method params

/-- The fixed emulation table: methods `routeCdpCommand` answers locally. -/
def emulatedMethods : List String :=
  ["Browser.getVersion", "Target.setDiscoverTargets", "Target.setAutoAttach",
   "Target.getBrowserContexts", "Target.createBrowserContext",
   "Target.attachToBrowserTarget", "Target.attachToTarget",
   "Target.getTargetInfo", "Target.getTargets"]

/-- Does a route outcome answer locally? -/
def RouteAction.isLocal : RouteAction → Bool
  | RouteAction.localResult _ => true
  | RouteAction.forward _ _ _ => false

/-- The `sessionId` field of a local result, as read by the
`Target.attachToTarget` special case (`result?.sessionId`). -/
def CDPResult.sessionIdField : CDPResult → Option String
  | CDPResult.sessionIdResult s => some s
  | _ => none

/-! ### Client channel handlers (`/cdp/:clientId?`) -/

/-- Client `onOpen`: reject a duplicate client id at handshake, otherwise
register the connection with an empty `knownTargets` set. -/
def clientOnOpen (st : RelayState) (clientId : String) : RelayState × List Output :=
  if mapHas st.patchrightClients clientId then
    (st, [Output.closeClient clientId 1000 "Client ID already connected"])
  else
    ({ st with patchrightClients := mapSet st.patchrightClients clientId [] }, [])

/-- Client `onClose`: drop the client id from the registry. -/
def clientOnClose (st : RelayState) (clientId : String) : RelayState :=
  { st with patchrightClients := mapDelete st.patchrightClients clientId }

/-- An inbound client command envelope `{id, sessionId?, method, params}`. -/
structure CDPCommand where
  id : Nat
  method : String
  params : CDPParams := {}
  sessionId : Option String := none
deriving DecidableEq, Repr

/-- The `Target.setAutoAttach` special case: one `sendAttachedToTarget`
call per registry entry, scoped to the requesting client. -/
def notifyAllTargets (clients : List (String × List String))
    (targets : List ConnectedTarget) (clientId : String) :
    List (String × List String) × List Output :=
  match targets with
  | [] => (clients, [])
  | t :: rest =>
    let r := sendAttachedToTarget clients t (some clientId)
    let rr := notifyAllTargets r.1 rest clientId
    (rr.1, r.2 ++ rr.2)

/-- Client `onMessage`.  `none` models a frame that fails JSON parsing
(the handler returns silently).  When no extension channel is present the
command is answered with the `Extension not connected` error before any
routing.  Otherwise the command is routed: an emulated result is answered
at once (after the auto-attach / discovery / attach-to-target notification
special cases); a forwarded command allocates a pending correlated request
whose reply will settle later. -/
def clientOnMessage (st : RelayState) (clientId : String) (msg : Option CDPCommand) :
    RelayState × List Output :=
  match msg with
  | none => (st, [])
  | some cmd =>
    if st.extensionConnected = false then
      (st, sendToClient st.patchrightClients clientId
        (ClientMsg.errorResponse cmd.id cmd.sessionId "Extension not connected"))
    else
      match routeCdpCommand st.connectedTargets cmd.method cmd.params cmd.sessionId with
      | RouteAction.forward fsid fmethod fparams =>
        sendToExtension st "forwardCDPCommand"
          { method := some fmethod, params := fparams, sessionId := fsid }
      | RouteAction.localResult res =>
        let p1 :=
          if cmd.method = "Target.setAutoAttach" ∧ cmd.sessionId = none then
            notifyAllTargets st.patchrightClients
              (st.connectedTargets.map (fun p => p.2)) clientId
          else (st.patchrightClients, [])
        let out2 :=
          if cmd.method = "Target.setDiscoverTargets" ∧ cmd.params.discover = some true then
            (st.connectedTargets.map (fun p => p.2)).flatMap (fun t =>
              sendToClient p1.1 clientId
                (ClientMsg.targetCreated { t.targetInfo with attached := true }))
          else []
        let p3 :=
          if cmd.method = "Target.attachToTarget" ∧
              (res.sessionIdField.getD "") ≠ "" then
            match cmd.params.targetId with
            | some tid =>
              match findByTargetId st.connectedTargets tid with
              | some t => sendAttachedToTarget p1.1 t (some clientId)
              | none => (p1.1, [])
            | none => (p1.1, [])
          else (p1.1, [])
        ({ st with patchrightClients := p3.1 },
         p1.2 ++ out2 ++ p3.2 ++
           sendToClient p3.1 clientId (ClientMsg.response cmd.id cmd.sessionId res))

/-! ### Extension channel handlers (`/extension`) -/

/-- A well-formed inbound message on the extension channel. -/
inductive ForwardedEvent where
  | attachedToTarget (sessionId : String) (targetInfo : TargetInfo)
  | detachedFromTarget (sessionId : String)
  | targetInfoChanged (targetInfo : TargetInfo)
  | otherEvent (method : String) (sessionId : Option String)
deriving DecidableEq, Repr

/-- Inbound extension frames: a correlated reply `{id, result?|error?}`, a
log line, or a wrapped `forwardCDPEvent`. -/
inductive ExtensionMessage where
  | response (id : Nat) (error : Option String)
  | logMessage (level : String) (args : List String)
  | forwardCDPEvent (event : ForwardedEvent)
deriving DecidableEq, Repr

/-- Extension `onOpen`: when a channel is already active, replace it —
close the old channel with code `4001`, clear the Target Registry and the
Named Page Directory, and reject then clear every pending correlated
request.  The Client Registry is not touched. -/
def extensionOnOpen (st : RelayState) : RelayState × List Output :=
  if st.extensionConnected then
    ({ st with extensionConnected := true, connectedTargets := [], namedPages := [],
               extensionPendingRequests := [] },
     Output.closeExtension 4001 "Extension Replaced" ::
       st.extensionPendingRequests.map
         (fun id => Output.settle id (Outcome.rejected "Extension connection replaced")))
  else
    ({ st with extensionConnected := true }, [])

/-- Extension `onMessage`.  `none` models a frame that fails JSON parsing:
the handler closes the channel (`1000`, `Invalid JSON`).  A reply whose id
has no pending record is dropped without touching any state.  The error
field of a reply is tested for JS truthiness (absent or empty string
resolves).  `forwardCDPEvent` payloads update the registries and are
re-broadcast. -/
def extensionOnMessage (st : RelayState) (msg : Option ExtensionMessage) :
    RelayState × List Output :=
  match msg with
  | none => (st, [Output.closeExtension 1000 "Invalid JSON"])
  | some (ExtensionMessage.response id err) =>
    if st.extensionPendingRequests.contains id then
      ({ st with extensionPendingRequests :=
          st.extensionPendingRequests.filter (fun j => j ≠ id) },
       if (err.getD "") ≠ "" then
         [Output.settle id (Outcome.rejected (err.getD ""))]
       else
         [Output.settle id Outcome.resolved])
    else (st, [])
  | some (ExtensionMessage.logMessage _ _) => (st, [])
  | some (ExtensionMessage.forwardCDPEvent ev) =>
    match ev with
    | ForwardedEvent.attachedToTarget sid info =>
      let target : ConnectedTarget := ⟨sid, info.targetId, info⟩
      let r := broadcastAttached st.patchrightClients target false
      ({ st with connectedTargets := applyAttach st.connectedTargets sid info,
                 patchrightClients := r.1 }, r.2)
    | ForwardedEvent.detachedFromTarget sid =>
      let p := applyDetach st.connectedTargets st.namedPages sid
      ({ st with connectedTargets := p.1, namedPages := p.2 },
       sendToAllClients st.patchrightClients (ClientMsg.detachedFromTarget sid))
    | ForwardedEvent.targetInfoChanged info =>
      ({ st with connectedTargets := applyInfoChanged st.connectedTargets info },
       sendToAllClients st.patchrightClients (ClientMsg.targetInfoChanged info))
    | ForwardedEvent.otherEvent method sid =>
      (st, sendToAllClients st.patchrightClients (ClientMsg.forwardedEvent method sid))

/-- Extension `onClose`.  `wsIsCurrent` is the `extensionWs === ws` test:
the close of an already-replaced channel is ignored.  Otherwise: reject
and clear every pending correlated request, drop the channel, clear both
registries, and close then clear every client connection. -/
def extensionOnClose (st : RelayState) (wsIsCurrent : Bool) : RelayState × List Output :=
  if st.extensionConnected ∧ wsIsCurrent = false then (st, [])
  else
    ({ st with extensionConnected := false, connectedTargets := [], namedPages := [],
               extensionPendingRequests := [], patchrightClients := [] },
     st.extensionPendingRequests.map
        (fun id => Output.settle id (Outcome.rejected "Extension connection closed")) ++
       st.patchrightClients.map
        (fun c => Output.closeClient c.1 1000 "Extension disconnected"))

/-! ### Named-page HTTP handlers (`/pages`)

The page-creation handler suspends twice (awaiting the forwarded
`Target.createTarget` reply, then a 200 ms sleep before scanning the
Target Registry).  The embedding makes the nondeterminism of that window
explicit: `PagesOracle` carries the `targetId` of the extension's reply
and the relay events the single-threaded loop processes meanwhile. -/

/-- Relay events that mutate the Target Registry or the Named Page
Directory: extension-reported attach/detach, and the bind step of a
(possibly concurrent) page-creation handler reaching
`namedPages.set(name, sessionId)`. -/
inductive RelayEvent where
  | attach (sessionId : String) (targetInfo : TargetInfo)
  | detach (sessionId : String)
  | bindPage (name : String) (sessionId : String)
deriving DecidableEq, Repr

/-- The bind step of the page-creation handler, with the reachability
conditions of its code path: the bound session was found live in the
Target Registry; a binding for `name` that pointed at a dead session was
deleted before the create started; `Map.set` overwrites in place if a
concurrent handler bound `name` meanwhile. -/
def applyBind (targets : List (String × ConnectedTarget))
    (pages : List (String × String)) (name sid : String) : List (String × String) :=
  if mapHas targets sid then
    let pages2 :=
      match mapGet pages name with
      | some s => if mapHas targets s then pages else mapDelete pages name
      | none => pages
    mapSet pages2 name sid
  else pages

/-- One registry-mutating relay event, on the (Target Registry, Named Page
Directory) pair. -/
def stepEvent (st : List (String × ConnectedTarget) × List (String × String))
    (ev : RelayEvent) : List (String × ConnectedTarget) × List (String × String) :=
  match ev with
  | RelayEvent.attach sid info => (applyAttach st.1 sid info, st.2)
  | RelayEvent.detach sid => applyDetach st.1 st.2 sid
  | RelayEvent.bindPage name sid => (st.1, applyBind st.1 st.2 name sid)

/-- A sequence of registry-mutating relay events. -/
def runEvents (st : List (String × ConnectedTarget) × List (String × String))
    (evs : List RelayEvent) : List (String × ConnectedTarget) × List (String × String) :=
  evs.foldl stepEvent st

/-- Result of the `POST /pages` handler. -/
inductive PagesResult where
  | ok (name : String) (targetId : String) (url : String)
  | badRequest
  | notConnected
  | serverError
deriving DecidableEq, Repr

/-- Nondeterminism of the page-creation window: the `targetId` in the
extension's `Target.createTarget` reply, and the relay events processed
during the await and the 200 ms sleep. -/
structure PagesOracle where
  createReplyTargetId : String
  waitEvents : List RelayEvent
deriving DecidableEq, Repr

/-- The create arm of `POST /pages` (no live binding for `name`): forward
`Target.createTarget`, let the window's events run, scan the Target
Registry in insertion order for the created `targetId`, bind the name to
the session found and bring the tab to front; fail with the
registry-inconsistency error when no entry matches. -/
def postPagesCreate (st : RelayState) (name : String) (oracle : PagesOracle) :
    RelayState × PagesResult × List Output :=
  if st.extensionConnected = false then (st, PagesResult.notConnected, [])
  else
    let r1 := sendToExtension st "forwardCDPCommand"
      { method := some "Target.createTarget", params := { url := some "about:blank" } }
    let core := runEvents (r1.1.connectedTargets, r1.1.namedPages) oracle.waitEvents
    let st2 := { r1.1 with connectedTargets := core.1, namedPages := core.2 }
    match findEntryByTargetId st2.connectedTargets oracle.createReplyTargetId with
    | some (sid, target) =>
      let st3 := { st2 with namedPages := mapSet st2.namedPages name sid }
      let r2 := sendToExtension st3 "forwardCDPCommand"
        { method := some "Target.activateTarget",
          params := { targetId := some target.targetId } }
      (r2.1, PagesResult.ok name target.targetId target.targetInfo.url, r1.2 ++ r2.2)
    | none => (st2, PagesResult.serverError, r1.2)

/-- `POST /pages` (get-or-create by name): a missing or empty name is a
bad request; a name bound to a live session is reused with a
`Target.activateTarget` (bring tab to front); a stale binding is deleted;
otherwise the create arm runs. -/
def postPages (st : RelayState) (name : Option String) (oracle : PagesOracle) :
    RelayState × PagesResult × List Output :=
  match name with
  | none => (st, PagesResult.badRequest, [])
  | some name =>
    if name = "" then (st, PagesResult.badRequest, [])
    else
      match mapGet st.namedPages name with
      | some sid =>
        match mapGet st.connectedTargets sid with
        | some target =>
          let r := sendToExtension st "forwardCDPCommand"
            { method := some "Target.activateTarget",
              params := { targetId := some target.targetId } }
          (r.1, PagesResult.ok name target.targetId target.targetInfo.url, r.2)
        | none =>
          postPagesCreate { st with namedPages := mapDelete st.namedPages name } name oracle
      | none => postPagesCreate st name oracle

/-- `GET /pages`: the page-name listing. -/
def listPages (st : RelayState) : List String :=
  st.namedPages.map (fun p => p.1)

/-- `DELETE /pages/:name`: remove the directory entry; the success flag is
whether the name was present.  Nothing is written to any socket. -/
def deletePage (st : RelayState) (name : String) : RelayState × Bool × List Output :=
  ({ st with namedPages := mapDelete st.namedPages name },
   mapHas st.namedPages name, [])

/-! ### Sample states used by witnesses and counterexamples -/

/-- A sample registry entry. -/
def sampleTarget : ConnectedTarget :=
  ⟨"S1", "T1", ⟨"T1", "page", "tab", "https://example.test", true⟩⟩

/-- A connected relay with one target, one named page, one client and one
pending request. -/
def sampleConnectedState : RelayState :=
  { connectedTargets := [("S1", sampleTarget)], namedPages := [("p", "S1")],
    patchrightClients := [("c", ["T1"])], extensionConnected := true,
    extensionPendingRequests := [3], extensionMessageId := 3 }

/-- Is an output a client-socket close? -/
def Output.isCloseClient : Output → Bool
  | Output.closeClient _ _ _ => true
  | _ => false

theorem isCloseClient_settle (id : Nat) (o : Outcome) :
    (Output.settle id o).isCloseClient = false := rfl

theorem isCloseClient_closeExtension (c : Nat) (r : String) :
    (Output.closeExtension c r).isCloseClient = false := rfl

/-- Unfolding of `extensionOnClose` for the active channel. -/
theorem extensionOnClose_current (st : RelayState) :
    extensionOnClose st true =
      ({ st with extensionConnected := false, connectedTargets := [], namedPages := [],
                 extensionPendingRequests := [], patchrightClients := [] },
       st.extensionPendingRequests.map
          (fun id => Output.settle id (Outcome.rejected "Extension connection closed")) ++
         st.patchrightClients.map
          (fun c => Output.closeClient c.1 1000 "Extension disconnected")) := by
  simp [extensionOnClose]

/-- C1 (counterexample): a second browser-side connection arriving while
one is active does not close the connected automation clients — the
client registry is untouched and no client-close is issued, so the claimed
full teardown (which includes closing every client connection) does not
happen. -/
theorem replacement_leaves_clients_connected :
    sampleConnectedState.extensionConnected = true ∧
    (extensionOnOpen sampleConnectedState).1.patchrightClients = [("c", ["T1"])] ∧
    (extensionOnOpen sampleConnectedState).2.all
      (fun o => !o.isCloseClient) = true := by
  refine ⟨rfl, by decide, by decide⟩

/-- C1 (amended): when a second browser-side connection arrives while one
is active, the old channel is closed with code 4001, every pending
correlated request is rejected with the replacement error, the Target
Registry and the Named Page Directory are cleared — but the automation
client connections stay registered and no client socket is closed, and
the old channel's own close event is then ignored by the
`extensionWs === ws` guard, so the clients survive the replacement. -/
theorem replacement_teardown_spares_clients (st : RelayState) (id : Nat)
    (hconn : st.extensionConnected = true) (hid : id ∈ st.extensionPendingRequests) :
    (extensionOnOpen st).1.connectedTargets = [] ∧
    (extensionOnOpen st).1.namedPages = [] ∧
    (extensionOnOpen st).1.extensionPendingRequests = [] ∧
    Output.closeExtension 4001 "Extension Replaced" ∈ (extensionOnOpen st).2 ∧
    Output.settle id (Outcome.rejected "Extension connection replaced") ∈
      (extensionOnOpen st).2 ∧
    (extensionOnOpen st).1.patchrightClients = st.patchrightClients ∧
    (extensionOnOpen st).2.all (fun o => !o.isCloseClient) = true ∧
    extensionOnClose (extensionOnOpen st).1 false = ((extensionOnOpen st).1, []) := by
  refine ⟨by simp [extensionOnOpen, hconn], by simp [extensionOnOpen, hconn],
    by simp [extensionOnOpen, hconn], by simp [extensionOnOpen, hconn], ?_, ?_, ?_, ?_⟩
  · simp only [extensionOnOpen, hconn, if_true]
    exact List.mem_cons_of_mem _ (List.mem_map_of_mem _ hid)
  · simp [extensionOnOpen, hconn]
  · simp only [extensionOnOpen, hconn, if_true, List.all_cons, List.all_map]
    simp [isCloseClient_settle, isCloseClient_closeExtension, Function.comp,
      List.all_eq_true]
  · simp [extensionOnClose, extensionOnOpen, hconn]

/-- C1 (witness for the amended theorem). -/
theorem replacement_teardown_spares_clients_witness :
    (extensionOnOpen sampleConnectedState).1.connectedTargets = [] ∧
    (extensionOnOpen sampleConnectedState).1.namedPages = [] ∧
    (extensionOnOpen sampleConnectedState).1.extensionPendingRequests = [] ∧
    Output.closeExtension 4001 "Extension Replaced" ∈
      (extensionOnOpen sampleConnectedState).2 ∧
    Output.settle 3 (Outcome.rejected "Extension connection replaced") ∈
      (extensionOnOpen sampleConnectedState).2 ∧
    (extensionOnOpen sampleConnectedState).1.patchrightClients =
      sampleConnectedState.patchrightClients ∧
    (extensionOnOpen sampleConnectedState).2.all (fun o => !o.isCloseClient) = true ∧
    extensionOnClose (extensionOnOpen sampleConnectedState).1 false =
      ((extensionOnOpen sampleConnectedState).1, []) :=
  replacement_teardown_spares_clients sampleConnectedState 3 rfl (by decide)

/-- C2 (code bug): a second client connection with an id already in the
Client Registry is rejected at handshake with the duplicate-id close and
no relay state is created for it — but when that rejected connection then
finishes closing, its `onClose` handler deletes the id from the registry,
deregistering the first, surviving connection. -/
theorem duplicate_client_close_deregisters_first :
    (clientOnOpen sampleConnectedState "c").2 =
      [Output.closeClient "c" 1000 "Client ID already connected"] ∧
    (clientOnOpen sampleConnectedState "c").1 = sampleConnectedState ∧
    (clientOnClose (clientOnOpen sampleConnectedState "c").1 "c").patchrightClients
      = [] := by
  refine ⟨by decide, by decide, by decide⟩

/-- C5: a forwarded command arms a 30000 ms timeout by default; the
timeout callback discards the pending correlation record and the caller
observes the timeout error; and a reply whose id has no pending record —
in particular one arriving after its timeout fired — is silently dropped:
the state is unchanged and nothing settles. -/
theorem forwarded_timeout_then_late_reply (st st2 : RelayState) (id t : Nat)
    (method : String) (params : ForwardParams) (err : Option String)
    (hlate : st2.extensionPendingRequests.contains id = false) :
    sendToExtension st method params = sendToExtension st method params 30000 ∧
    Output.armTimeout (st.extensionMessageId + 1) 30000 method ∈
      (sendToExtension st method params).2 ∧
    (timeoutFire st id t method).1.extensionPendingRequests.contains id = false ∧
    (timeoutFire st id t method).2 = [Output.settle id (Outcome.rejected
      ("Extension request timeout after " ++ toString t ++ "ms: " ++ method))] ∧
    extensionOnMessage st2 (some (ExtensionMessage.response id err)) = (st2, []) := by
  refine ⟨rfl, by simp [sendToExtension], ?_, rfl, ?_⟩
  · simp [timeoutFire, List.contains_eq_any_beq, List.any_filter]
  · have h2 : ¬id ∈ st2.extensionPendingRequests := by
      simpa using hlate
    simp [extensionOnMessage, h2]

/-- C5 (witness). -/
theorem forwarded_timeout_then_late_reply_witness :
    sendToExtension sampleConnectedState "forwardCDPCommand" {} =
      sendToExtension sampleConnectedState "forwardCDPCommand" {} 30000 ∧
    Output.armTimeout 4 30000 "forwardCDPCommand" ∈
      (sendToExtension sampleConnectedState "forwardCDPCommand" {}).2 ∧
    (timeoutFire sampleConnectedState 3 30000
      "forwardCDPCommand").1.extensionPendingRequests.contains 3 = false ∧
    (timeoutFire sampleConnectedState 3 30000 "forwardCDPCommand").2 =
      [Output.settle 3 (Outcome.rejected
        ("Extension request timeout after " ++ toString 30000 ++ "ms: " ++
          "forwardCDPCommand"))] ∧
    extensionOnMessage
      (timeoutFire sampleConnectedState 3 30000 "forwardCDPCommand").1
      (some (ExtensionMessage.response 3 none)) =
      ((timeoutFire sampleConnectedState 3 30000 "forwardCDPCommand").1, []) :=
  forwarded_timeout_then_late_reply sampleConnectedState
    (timeoutFire sampleConnectedState 3 30000 "forwardCDPCommand").1 3 30000
    "forwardCDPCommand" {} none (by decide)

/-- C6: when the active browser-side channel closes, every pending
correlated request is rejected with the connection-closed error and the
set of pending records becomes empty. -/
theorem extension_close_fails_all_pending (st : RelayState) (id : Nat)
    (hid : id ∈ st.extensionPendingRequests) :
    (extensionOnClose st true).1.extensionPendingRequests = [] ∧
    Output.settle id (Outcome.rejected "Extension connection closed") ∈
      (extensionOnClose st true).2 := by
  constructor
  · simp [extensionOnClose]
  · rw [extensionOnClose_current]
    exact List.mem_append_left _ (List.mem_map_of_mem _ hid)

/-- C6 (witness). -/
theorem extension_close_fails_all_pending_witness :
    (extensionOnClose sampleConnectedState true).1.extensionPendingRequests = [] ∧
    Output.settle 3 (Outcome.rejected "Extension connection closed") ∈
      (extensionOnClose sampleConnectedState true).2 :=
  extension_close_fails_all_pending sampleConnectedState 3 (by decide)

/-- C10: an inbound frame that fails JSON parsing closes the browser-side
channel when it arrives there (and that close of the active channel runs
the full disconnect teardown: registries cleared, every pending request
rejected, every client closed and cleared), while on a client channel the
frame is silently ignored — no reply, no state change, the client stays
registered. -/
theorem invalid_json_paths (st : RelayState) (clientId : String) (id : Nat)
    (c : String × List String)
    (hid : id ∈ st.extensionPendingRequests) (hc : c ∈ st.patchrightClients) :
    extensionOnMessage st none = (st, [Output.closeExtension 1000 "Invalid JSON"]) ∧
    (extensionOnClose st true).1.connectedTargets = [] ∧
    (extensionOnClose st true).1.namedPages = [] ∧
    (extensionOnClose st true).1.extensionPendingRequests = [] ∧
    (extensionOnClose st true).1.patchrightClients = [] ∧
    Output.settle id (Outcome.rejected "Extension connection closed") ∈
      (extensionOnClose st true).2 ∧
    Output.closeClient c.1 1000 "Extension disconnected" ∈
      (extensionOnClose st true).2 ∧
    clientOnMessage st clientId none = (st, []) := by
  refine ⟨rfl, by simp [extensionOnClose], by simp [extensionOnClose],
    by simp [extensionOnClose], by simp [extensionOnClose], ?_, ?_, rfl⟩
  · rw [extensionOnClose_current]
    exact List.mem_append_left _ (List.mem_map_of_mem _ hid)
  · rw [extensionOnClose_current]
    exact List.mem_append_right _ (List.mem_map_of_mem _ hc)

/-- C10 (witness). -/
theorem invalid_json_paths_witness :
    extensionOnMessage sampleConnectedState none =
      (sampleConnectedState, [Output.closeExtension 1000 "Invalid JSON"]) ∧
    (extensionOnClose sampleConnectedState true).1.connectedTargets = [] ∧
    (extensionOnClose sampleConnectedState true).1.namedPages = [] ∧
    (extensionOnClose sampleConnectedState true).1.extensionPendingRequests = [] ∧
    (extensionOnClose sampleConnectedState true).1.patchrightClients = [] ∧
    Output.settle 3 (Outcome.rejected "Extension connection closed") ∈
      (extensionOnClose sampleConnectedState true).2 ∧
    Output.closeClient "c" 1000 "Extension disconnected" ∈
      (extensionOnClose sampleConnectedState true).2 ∧
    clientOnMessage sampleConnectedState "c" none = (sampleConnectedState, []) :=
  invalid_json_paths sampleConnectedState "c" 3 ("c", ["T1"]) (by decide) (by decide)

/-! ### C4: the emulation table answers locally -/

/-- Is an output a frame written to a client socket? -/
def Output.isToClient : Output → Bool
  | Output.toClient _ _ => true
  | _ => false

theorem notifyClient_outputs_toClient (cl : String × List String)
    (t : ConnectedTarget) (w : Bool) :
    (notifyClient cl t w).2.all Output.isToClient = true := by
  unfold notifyClient
  split <;> simp [Output.isToClient]

theorem broadcastAttached_outputs_toClient (clients : List (String × List String))
    (t : ConnectedTarget) (w : Bool) :
    (broadcastAttached clients t w).2.all Output.isToClient = true := by
  induction clients with
  | nil => rfl
  | cons c rest ih =>
    simp only [broadcastAttached, List.all_append]
    rw [notifyClient_outputs_toClient, ih]
    rfl

theorem sendAttachedToTarget_outputs_toClient (clients : List (String × List String))
    (t : ConnectedTarget) (cid : Option String) (w : Bool) :
    (sendAttachedToTarget clients t cid w).2.all Output.isToClient = true := by
  rcases cid with _ | c
  · exact broadcastAttached_outputs_toClient clients t w
  · rcases h : mapGet clients c with _ | known
    · simp [sendAttachedToTarget, h]
    · simp [sendAttachedToTarget, h, notifyClient_outputs_toClient]

theorem sendToClient_outputs_toClient (clients : List (String × List String))
    (cid : String) (msg : ClientMsg) :
    (sendToClient clients cid msg).all Output.isToClient = true := by
  unfold sendToClient
  cases mapGet clients cid <;> rfl

theorem notifyAllTargets_outputs_toClient (clients : List (String × List String))
    (targets : List ConnectedTarget) (cid : String) :
    (notifyAllTargets clients targets cid).2.all Output.isToClient = true := by
  induction targets generalizing clients with
  | nil => rfl
  | cons t rest ih =>
    simp only [notifyAllTargets, List.all_append]
    rw [sendAttachedToTarget_outputs_toClient, ih]
    rfl

theorem all_flatMap_toClient (l : List ConnectedTarget) (f : ConnectedTarget → List Output)
    (h : ∀ x ∈ l, (f x).all Output.isToClient = true) :
    (l.flatMap f).all Output.isToClient = true := by
  induction l with
  | nil => rfl
  | cons a as ih =>
    simp only [List.flatMap_cons, List.all_append]
    rw [h a (by simp), ih (fun x hx => h x (by simp [hx]))]
    rfl

/-- Every method of the fixed emulation table routes to a local result. -/
theorem routeIsLocal_of_emulated (targets : List (String × ConnectedTarget))
    (m : String) (params : CDPParams) (sid : Option String)
    (hm : m ∈ emulatedMethods) :
    (routeCdpCommand targets m params sid).isLocal = true := by
  simp only [emulatedMethods, List.mem_cons, List.not_mem_nil, or_false] at hm
  rcases hm with rfl | rfl | rfl | rfl | rfl | rfl | rfl | rfl | rfl <;>
  · simp only [routeCdpCommand]
    repeat' split
    all_goals simp_all [RouteAction.isLocal]

theorem routeCdpCommand_local_of_emulated (targets : List (String × ConnectedTarget))
    (m : String) (params : CDPParams) (sid : Option String)
    (hm : m ∈ emulatedMethods) :
    ∃ res, routeCdpCommand targets m params sid = RouteAction.localResult res := by
  have hloc := routeIsLocal_of_emulated targets m params sid hm
  rcases hr : routeCdpCommand targets m params sid with res | ⟨fsid, fm, fp⟩
  · exact ⟨res, rfl⟩
  · rw [hr] at hloc
    simp [RouteAction.isLocal] at hloc

/-- C4 (counterexample): `Browser.getVersion` is in the emulation table and
requires no forwarding, yet with no browser-side channel present the
client receives the not-connected protocol error for it — contradicting
the claim that this error is surfaced only when a command requires
forwarding. -/
theorem not_connected_error_for_emulated_method :
    "Browser.getVersion" ∈ emulatedMethods ∧
    (routeCdpCommand [] "Browser.getVersion" {} none).isLocal = true ∧
    clientOnMessage
        { connectedTargets := [], namedPages := [], patchrightClients := [("c", [])],
          extensionConnected := false, extensionPendingRequests := [],
          extensionMessageId := 0 }
        "c" (some { id := 1, method := "Browser.getVersion" }) =
      ({ connectedTargets := [], namedPages := [], patchrightClients := [("c", [])],
         extensionConnected := false, extensionPendingRequests := [],
         extensionMessageId := 0 },
       [Output.toClient "c"
          (ClientMsg.errorResponse 1 none "Extension not connected")]) := by
  refine ⟨by decide, by decide, by decide⟩

/-- C4 (amended): every command whose method is in the fixed emulation
table is answered locally when the browser-side channel is present — the
route is a local result and the handler writes only client-socket frames,
nothing to the browser-side channel; but when the browser-side channel is
absent the not-connected protocol error is surfaced for every client
command, emulated or not (the check precedes routing), not only for the
ones that require forwarding. -/
theorem emulation_table_local_and_disconnected_error
    (st st2 : RelayState) (clientId clientId2 : String) (cmd cmd2 : CDPCommand)
    (hconn : st.extensionConnected = true) (hm : cmd.method ∈ emulatedMethods)
    (hdis : st2.extensionConnected = false) :
    (routeCdpCommand st.connectedTargets cmd.method cmd.params cmd.sessionId).isLocal
      = true ∧
    ((clientOnMessage st clientId (some cmd)).2.all Output.isToClient) = true ∧
    clientOnMessage st2 clientId2 (some cmd2) =
      (st2, sendToClient st2.patchrightClients clientId2
        (ClientMsg.errorResponse cmd2.id cmd2.sessionId "Extension not connected")) := by
  refine ⟨routeIsLocal_of_emulated _ _ _ _ hm, ?_, by simp [clientOnMessage, hdis]⟩
  obtain ⟨res, hres⟩ :=
    routeCdpCommand_local_of_emulated st.connectedTargets cmd.method cmd.params
      cmd.sessionId hm
  simp only [clientOnMessage, hconn, Bool.true_eq_false, if_false, hres]
  simp only [List.all_append]
  have h1 : (if cmd.method = "Target.setAutoAttach" ∧ cmd.sessionId = none then
      notifyAllTargets st.patchrightClients
        (st.connectedTargets.map (fun p => p.2)) clientId
    else (st.patchrightClients, [])).2.all Output.isToClient = true := by
    split
    · exact notifyAllTargets_outputs_toClient _ _ _
    · rfl
  rw [h1]
  set p1 := (if cmd.method = "Target.setAutoAttach" ∧ cmd.sessionId = none then
      notifyAllTargets st.patchrightClients
        (st.connectedTargets.map (fun p => p.2)) clientId
    else (st.patchrightClients, [])) with hp1
  have h2 : (if cmd.method = "Target.setDiscoverTargets" ∧
        cmd.params.discover = some true then
      (st.connectedTargets.map (fun p => p.2)).flatMap (fun t =>
        sendToClient p1.1 clientId
          (ClientMsg.targetCreated { t.targetInfo with attached := true }))
    else []).all Output.isToClient = true := by
    split
    · exact all_flatMap_toClient _ _ (fun x _ => sendToClient_outputs_toClient _ _ _)
    · rfl
  rw [h2]
  have h3 : (if cmd.method = "Target.attachToTarget" ∧
        (res.sessionIdField.getD "") ≠ "" then
      match cmd.params.targetId with
      | some tid =>
        match findByTargetId st.connectedTargets tid with
        | some t => sendAttachedToTarget p1.1 t (some clientId)
        | none => (p1.1, [])
      | none => (p1.1, [])
    else (p1.1, [])).2.all Output.isToClient = true := by
    split
    · rcases htid : cmd.params.targetId with _ | tid
      · simp [htid]
      · rcases hfind : findByTargetId st.connectedTargets tid with _ | t
        · simp [htid, hfind]
        · simp [htid, hfind, sendAttachedToTarget_outputs_toClient]
    · rfl
  rw [h3]
  rw [sendToClient_outputs_toClient]
  rfl

/-- C4 (witness for the amended theorem). -/
theorem emulation_table_local_and_disconnected_error_witness :
    (routeCdpCommand sampleConnectedState.connectedTargets "Target.getTargets" {}
      none).isLocal = true ∧
    ((clientOnMessage sampleConnectedState "c"
      (some { id := 2, method := "Target.getTargets" })).2.all Output.isToClient)
      = true ∧
    clientOnMessage
        { connectedTargets := [], namedPages := [], patchrightClients := [("c", [])],
          extensionConnected := false, extensionPendingRequests := [],
          extensionMessageId := 0 }
        "c" (some { id := 7, method := "Page.navigate" }) =
      ({ connectedTargets := [], namedPages := [], patchrightClients := [("c", [])],
         extensionConnected := false, extensionPendingRequests := [],
         extensionMessageId := 0 },
       sendToClient [("c", [])] "c"
         (ClientMsg.errorResponse 7 none "Extension not connected")) :=
  emulation_table_local_and_disconnected_error sampleConnectedState
    { connectedTargets := [], namedPages := [], patchrightClients := [("c", [])],
      extensionConnected := false, extensionPendingRequests := [],
      extensionMessageId := 0 }
    "c" "c" { id := 2, method := "Target.getTargets" }
    { id := 7, method := "Page.navigate" } rfl (by decide) rfl

/-! ### C7 and C9: named-page get-or-create and deletion -/

/-- Is an output a `Target.createTarget` command forwarded to the
extension? -/
def Output.isCreateTargetCmd : Output → Bool
  | Output.toExtension _ _ p => p.method == some "Target.createTarget"
  | _ => false

/-- Is an output a `Target.activateTarget` (bring tab to front) command
forwarded to the extension? -/
def Output.isActivateTargetCmd : Output → Bool
  | Output.toExtension _ _ p => p.method == some "Target.activateTarget"
  | _ => false

/-- Number of `Target.createTarget` commands among the outputs. -/
def countCreateTarget (outs : List Output) : Nat :=
  (outs.filter Output.isCreateTargetCmd).length

/-- Number of `Target.activateTarget` commands among the outputs. -/
def countActivateTarget (outs : List Output) : Nat :=
  (outs.filter Output.isActivateTargetCmd).length

theorem countCreateTarget_append (l1 l2 : List Output) :
    countCreateTarget (l1 ++ l2) = countCreateTarget l1 + countCreateTarget l2 := by
  simp [countCreateTarget, List.filter_append]

theorem find?_append_of_none (l1 l2 : List α) (p : α → Bool)
    (h : l1.find? p = none) : (l1 ++ l2).find? p = l2.find? p := by
  induction l1 with
  | nil => rfl
  | cons a as ih =>
    by_cases hp : p a
    · rw [List.find?_cons_of_pos _ hp] at h
      exact absurd h (by simp)
    · rw [List.cons_append, List.find?_cons_of_neg _ hp]
      rw [List.find?_cons_of_neg _ hp] at h
      exact ih h

/-- The create arm of `POST /pages` under a clean window: the extension
replies with a fresh `targetId` and the only event of the window is the
matching attach.  The handler binds the name to the newly attached
session, issues exactly one create and one activate command, and returns
the created target. -/
theorem postPagesCreate_fresh_eq (st : RelayState) (name S T : String)
    (info : TargetInfo)
    (hconn : st.extensionConnected = true) (hT : info.targetId = T)
    (hfresh : ∀ p ∈ st.connectedTargets, p.2.targetId ≠ T)
    (hS : mapGet st.connectedTargets S = none) :
    postPagesCreate st name ⟨T, [RelayEvent.attach S info]⟩ =
      ({ connectedTargets := st.connectedTargets ++ [(S, ⟨S, T, info⟩)],
         namedPages := mapSet st.namedPages name S,
         patchrightClients := st.patchrightClients,
         extensionConnected := st.extensionConnected,
         extensionPendingRequests := (st.extensionPendingRequests ++
           [st.extensionMessageId + 1]) ++ [st.extensionMessageId + 2],
         extensionMessageId := st.extensionMessageId + 2 },
       PagesResult.ok name T info.url,
       [Output.toExtension (st.extensionMessageId + 1) "forwardCDPCommand"
          { method := some "Target.createTarget",
            params := { url := some "about:blank" } },
        Output.armTimeout (st.extensionMessageId + 1) 30000 "forwardCDPCommand",
        Output.toExtension (st.extensionMessageId + 2) "forwardCDPCommand"
          { method := some "Target.activateTarget",
            params := { targetId := some T } },
        Output.armTimeout (st.extensionMessageId + 2) 30000 "forwardCDPCommand"]) := by
  subst hT
  have hhas : mapHas st.connectedTargets S = false := by simp [mapHas, hS]
  have hnone : st.connectedTargets.find?
      (fun p => p.2.targetId == info.targetId) = none := by
    rw [List.find?_eq_none]
    intro p hp
    simpa using hfresh p hp
  simp only [postPagesCreate, hconn, sendToExtension, runEvents, List.foldl,
    stepEvent, applyAttach]
  rw [mapSet_of_not_has _ _ _ hhas]
  simp only [findEntryByTargetId]
  rw [find?_append_of_none _ _ _ hnone]
  simp [List.find?]

/-- C7: a get-or-create on an unbound name (with a clean creation window:
the extension's reply carries a fresh `targetId` whose attach is the only
intervening event), immediately followed by a second get-or-create with
the same name, binds the name to the same session both times, forwards
exactly one `Target.createTarget` across the two requests, and the second
request issues a `Target.activateTarget` (bring tab to front) instead of
creating. -/
theorem get_or_create_idempotent (st : RelayState) (name S T : String)
    (info : TargetInfo) (oracle2 : PagesOracle)
    (hname : name ≠ "") (hunbound : mapGet st.namedPages name = none)
    (hconn : st.extensionConnected = true) (hT : info.targetId = T)
    (hfresh : ∀ p ∈ st.connectedTargets, p.2.targetId ≠ T)
    (hS : mapGet st.connectedTargets S = none) :
    mapGet (postPages st (some name)
        ⟨T, [RelayEvent.attach S info]⟩).1.namedPages name = some S ∧
    mapGet (postPages (postPages st (some name)
        ⟨T, [RelayEvent.attach S info]⟩).1 (some name)
        oracle2).1.namedPages name = some S ∧
    countCreateTarget ((postPages st (some name)
        ⟨T, [RelayEvent.attach S info]⟩).2.2 ++
      (postPages (postPages st (some name)
        ⟨T, [RelayEvent.attach S info]⟩).1 (some name) oracle2).2.2) = 1 ∧
    countActivateTarget (postPages (postPages st (some name)
        ⟨T, [RelayEvent.attach S info]⟩).1 (some name) oracle2).2.2 = 1 := by
  have hfirst : postPages st (some name) ⟨T, [RelayEvent.attach S info]⟩ =
      postPagesCreate st name ⟨T, [RelayEvent.attach S info]⟩ := by
    simp [postPages, hname, hunbound]
  rw [hfirst, postPagesCreate_fresh_eq st name S T info hconn hT hfresh hS]
  have hhas : mapHas st.connectedTargets S = false := by simp [mapHas, hS]
  have hgetS : mapGet (st.connectedTargets ++ [(S, ⟨S, T, info⟩)]) S =
      some ⟨S, T, info⟩ := by
    rw [mapGet_append_right _ _ _ hhas]
    simp [mapGet]
  have hsecond : postPages
      { connectedTargets := st.connectedTargets ++ [(S, ⟨S, T, info⟩)],
        namedPages := mapSet st.namedPages name S,
        patchrightClients := st.patchrightClients,
        extensionConnected := st.extensionConnected,
        extensionPendingRequests := (st.extensionPendingRequests ++
          [st.extensionMessageId + 1]) ++ [st.extensionMessageId + 2],
        extensionMessageId := st.extensionMessageId + 2 }
      (some name) oracle2 =
      ({ connectedTargets := st.connectedTargets ++ [(S, ⟨S, T, info⟩)],
         namedPages := mapSet st.namedPages name S,
         patchrightClients := st.patchrightClients,
         extensionConnected := st.extensionConnected,
         extensionPendingRequests := ((st.extensionPendingRequests ++
           [st.extensionMessageId + 1]) ++ [st.extensionMessageId + 2]) ++
           [st.extensionMessageId + 3],
         extensionMessageId := st.extensionMessageId + 3 },
       PagesResult.ok name T info.url,
       [Output.toExtension (st.extensionMessageId + 3) "forwardCDPCommand"
          { method := some "Target.activateTarget",
            params := { targetId := some T } },
        Output.armTimeout (st.extensionMessageId + 3) 30000 "forwardCDPCommand"]) := by
    simp only [postPages, mapGet_set_self, hgetS, sendToExtension]
    simp [hname]
  rw [hsecond]
  refine ⟨mapGet_set_self _ _ _, mapGet_set_self _ _ _, ?_, ?_⟩
  · rw [countCreateTarget_append]
    simp [countCreateTarget, Output.isCreateTargetCmd, List.filter]
  · simp [countActivateTarget, Output.isActivateTargetCmd, List.filter]

/-- An idle connected relay with no targets, pages, clients or pending
requests. -/
def emptyRelayState : RelayState :=
  { connectedTargets := [], namedPages := [], patchrightClients := [],
    extensionConnected := true, extensionPendingRequests := [],
    extensionMessageId := 0 }

/-- The target info of a freshly created `about:blank` tab. -/
def demoInfo : TargetInfo := ⟨"T1", "page", "", "about:blank", false⟩

/-- C7 (witness). -/
theorem get_or_create_idempotent_witness :
    mapGet (postPages emptyRelayState (some "demo")
        ⟨"T1", [RelayEvent.attach "S1" demoInfo]⟩).1.namedPages "demo" = some "S1" ∧
    mapGet (postPages (postPages emptyRelayState (some "demo")
        ⟨"T1", [RelayEvent.attach "S1" demoInfo]⟩).1 (some "demo")
        ⟨"", []⟩).1.namedPages "demo" = some "S1" ∧
    countCreateTarget ((postPages emptyRelayState (some "demo")
        ⟨"T1", [RelayEvent.attach "S1" demoInfo]⟩).2.2 ++
      (postPages (postPages emptyRelayState (some "demo")
        ⟨"T1", [RelayEvent.attach "S1" demoInfo]⟩).1 (some "demo")
        ⟨"", []⟩).2.2) = 1 ∧
    countActivateTarget (postPages (postPages emptyRelayState (some "demo")
        ⟨"T1", [RelayEvent.attach "S1" demoInfo]⟩).1 (some "demo")
        ⟨"", []⟩).2.2 = 1 :=
  get_or_create_idempotent emptyRelayState "demo" "S1" "T1" demoInfo ⟨"", []⟩
    (by decide) rfl rfl rfl (by simp [emptyRelayState]) rfl

theorem map_fst_filter_ne (pages : List (String × String)) (name : String) :
    (pages.filter (fun p => p.1 ≠ name)).map (fun p => p.1) =
      (pages.map (fun p => p.1)).filter (fun n => n ≠ name) := by
  induction pages with
  | nil => rfl
  | cons p rest ih =>
    simp only [decide_not] at ih ⊢
    by_cases h : p.1 = name <;> simp [h, ih]

/-- C9: deleting a named page removes only that directory entry — the name
leaves the page listing, the Target Registry, the client registry, the
pending requests and every other directory entry are unchanged, and no
command is written to the browser side — and a subsequent get-or-create
with that name (under a clean creation window binding a session `S`
different from the old one) forwards a `Target.createTarget` and binds the
name to the fresh session instead of the old one. -/
theorem delete_page_only_removes_entry (st : RelayState) (name n2 : String)
    (S T oldSid : String) (info : TargetInfo)
    (hn2 : n2 ≠ name)
    (hold : mapGet st.namedPages name = some oldSid)
    (hSold : S ≠ oldSid)
    (hconn : st.extensionConnected = true) (hname : name ≠ "")
    (hT : info.targetId = T)
    (hfresh : ∀ p ∈ st.connectedTargets, p.2.targetId ≠ T)
    (hS : mapGet st.connectedTargets S = none) :
    listPages (deletePage st name).1 = (listPages st).filter (fun n => n ≠ name) ∧
    name ∉ listPages (deletePage st name).1 ∧
    (deletePage st name).1.connectedTargets = st.connectedTargets ∧
    (deletePage st name).1.patchrightClients = st.patchrightClients ∧
    (deletePage st name).1.extensionPendingRequests = st.extensionPendingRequests ∧
    mapGet (deletePage st name).1.namedPages n2 = mapGet st.namedPages n2 ∧
    (deletePage st name).2.2 = [] ∧
    countCreateTarget (postPages (deletePage st name).1 (some name)
      ⟨T, [RelayEvent.attach S info]⟩).2.2 = 1 ∧
    mapGet (postPages (deletePage st name).1 (some name)
      ⟨T, [RelayEvent.attach S info]⟩).1.namedPages name = some S ∧
    some S ≠ some oldSid := by
  have hdel : (deletePage st name).1 =
      { st with namedPages := mapDelete st.namedPages name } := rfl
  have hget : mapGet (mapDelete st.namedPages name) name = none := by
    rw [mapGet_delete]
    simp
  have hsnd : postPages (deletePage st name).1 (some name)
      ⟨T, [RelayEvent.attach S info]⟩ =
      postPagesCreate { st with namedPages := mapDelete st.namedPages name } name
        ⟨T, [RelayEvent.attach S info]⟩ := by
    rw [hdel]
    simp [postPages, hname, hget]
  have hcreate := postPagesCreate_fresh_eq
    { st with namedPages := mapDelete st.namedPages name } name S T info hconn hT
    hfresh hS
  refine ⟨?_, ?_, rfl, rfl, rfl, ?_, rfl, ?_, ?_, by simpa using hSold⟩
  · simpa [listPages, deletePage, mapDelete] using
      map_fst_filter_ne st.namedPages name
  · simp [listPages, deletePage, mapDelete, List.mem_filter]
  · rw [hdel]
    show mapGet (mapDelete st.namedPages name) n2 = mapGet st.namedPages n2
    rw [mapGet_delete]
    simp [hn2]
  · rw [hsnd, hcreate]
    simp [countCreateTarget, Output.isCreateTargetCmd, List.filter]
  · rw [hsnd, hcreate]
    exact mapGet_set_self _ _ _

/-- C9 (witness). -/
theorem delete_page_only_removes_entry_witness :
    (listPages (deletePage
        { connectedTargets := [], namedPages := [("demo", "S0"), ("other", "S0")],
          patchrightClients := [], extensionConnected := true,
          extensionPendingRequests := [], extensionMessageId := 0 } "demo").1 =
      (listPages
        { connectedTargets := [], namedPages := [("demo", "S0"), ("other", "S0")],
          patchrightClients := [], extensionConnected := true,
          extensionPendingRequests := [], extensionMessageId := 0 }).filter
        (fun n => n ≠ "demo")) ∧
    "demo" ∉ listPages (deletePage
        { connectedTargets := [], namedPages := [("demo", "S0"), ("other", "S0")],
          patchrightClients := [], extensionConnected := true,
          extensionPendingRequests := [], extensionMessageId := 0 } "demo").1 ∧
    (deletePage
        { connectedTargets := [], namedPages := [("demo", "S0"), ("other", "S0")],
          patchrightClients := [], extensionConnected := true,
          extensionPendingRequests := [], extensionMessageId := 0 }
      "demo").1.connectedTargets = [] ∧
    (deletePage
        { connectedTargets := [], namedPages := [("demo", "S0"), ("other", "S0")],
          patchrightClients := [], extensionConnected := true,
          extensionPendingRequests := [], extensionMessageId := 0 }
      "demo").1.patchrightClients = [] ∧
    (deletePage
        { connectedTargets := [], namedPages := [("demo", "S0"), ("other", "S0")],
          patchrightClients := [], extensionConnected := true,
          extensionPendingRequests := [], extensionMessageId := 0 }
      "demo").1.extensionPendingRequests = [] ∧
    mapGet (deletePage
        { connectedTargets := [], namedPages := [("demo", "S0"), ("other", "S0")],
          patchrightClients := [], extensionConnected := true,
          extensionPendingRequests := [], extensionMessageId := 0 }
      "demo").1.namedPages "other" =
      mapGet [("demo", "S0"), ("other", "S0")] "other" ∧
    (deletePage
        { connectedTargets := [], namedPages := [("demo", "S0"), ("other", "S0")],
          patchrightClients := [], extensionConnected := true,
          extensionPendingRequests := [], extensionMessageId := 0 }
      "demo").2.2 = [] ∧
    countCreateTarget (postPages (deletePage
        { connectedTargets := [], namedPages := [("demo", "S0"), ("other", "S0")],
          patchrightClients := [], extensionConnected := true,
          extensionPendingRequests := [], extensionMessageId := 0 } "demo").1
      (some "demo") ⟨"T1", [RelayEvent.attach "S1" demoInfo]⟩).2.2 = 1 ∧
    mapGet (postPages (deletePage
        { connectedTargets := [], namedPages := [("demo", "S0"), ("other", "S0")],
          patchrightClients := [], extensionConnected := true,
          extensionPendingRequests := [], extensionMessageId := 0 } "demo").1
      (some "demo") ⟨"T1", [RelayEvent.attach "S1" demoInfo]⟩).1.namedPages "demo" =
      some "S1" ∧
    some "S1" ≠ some "S0" :=
  delete_page_only_removes_entry
    { connectedTargets := [], namedPages := [("demo", "S0"), ("other", "S0")],
      patchrightClients := [], extensionConnected := true,
      extensionPendingRequests := [], extensionMessageId := 0 }
    "demo" "other" "S1" "T1" "S0" demoInfo
    (by decide) rfl (by decide) rfl (by decide) rfl (by simp) rfl

/-! ### C3: attach/detach sequences and the cascade invariant -/

theorem mapHas_set (m : List (String × α)) (k k2 : String) (v : α) :
    mapHas (mapSet m k v) k2 = if k2 = k then true else mapHas m k2 := by
  by_cases h : k2 = k
  · subst h
    simp [mapHas, mapGet_set_self]
  · simp [mapHas, mapGet_set_other _ _ _ _ h, h]

theorem mapHas_delete (m : List (String × α)) (k k2 : String) :
    mapHas (mapDelete m k) k2 = if k2 = k then false else mapHas m k2 := by
  by_cases h : k2 = k <;> simp [mapHas, mapGet_delete, h]

theorem mapGet_mem (m : List (String × α)) (k : String) (v : α)
    (h : mapGet m k = some v) : (k, v) ∈ m := by
  induction m with
  | nil => simp [mapGet] at h
  | cons p rest ih =>
    obtain ⟨k2, v2⟩ := p
    by_cases h2 : k2 = k
    · rw [mapGet, if_pos h2] at h
      subst h2
      injection h with h
      simp [h]
    · rw [mapGet, if_neg h2] at h
      exact List.mem_cons_of_mem _ (ih h)

theorem mem_mapSet (m : List (String × α)) (k : String) (v : α) (p : String × α)
    (hp : p ∈ mapSet m k v) : p = (k, v) ∨ p ∈ m := by
  induction m with
  | nil => simpa [mapSet] using hp
  | cons q rest ih =>
    obtain ⟨k2, v2⟩ := q
    by_cases h : k2 = k
    · simp only [mapSet, if_pos h] at hp
      rcases List.mem_cons.mp hp with h1 | h1
      · exact Or.inl h1
      · exact Or.inr (List.mem_cons_of_mem _ h1)
    · simp only [mapSet, if_neg h] at hp
      rcases List.mem_cons.mp hp with h1 | h1
      · exact Or.inr (by simp [h1])
      · rcases ih h1 with h2 | h2
        · exact Or.inl h2
        · exact Or.inr (List.mem_cons_of_mem _ h2)

/-- Registry membership predicted from an event history: the last
attach/detach event for `sid` decides it (`b` is the initial
membership). -/
def lastIsAttach (evs : List RelayEvent) (sid : String) (b : Bool) : Bool :=
  match evs with
  | [] => b
  | RelayEvent.attach s _ :: rest =>
    lastIsAttach rest sid (if s = sid then true else b)
  | RelayEvent.detach s :: rest =>
    lastIsAttach rest sid (if s = sid then false else b)
  | RelayEvent.bindPage _ _ :: rest => lastIsAttach rest sid b

/-- Every directory entry resolves to a live registry session. -/
def pagesConsistent
    (st : List (String × ConnectedTarget) × List (String × String)) : Bool :=
  st.2.all (fun p => mapHas st.1 p.2)

/-- No two directory entries are bound to the same session. -/
def noDupVals : List (String × String) → Bool
  | [] => true
  | p :: rest => rest.all (fun q => !(q.2 == p.2)) && noDupVals rest

/-- A bind event is value-fresh in a state when it is a no-op (dead
session) or no existing name is bound to its session. -/
def freshBindOk (st : List (String × ConnectedTarget) × List (String × String)) :
    RelayEvent → Bool
  | RelayEvent.bindPage _ sid => !mapHas st.1 sid || st.2.all (fun q => !(q.2 == sid))
  | _ => true

/-- Along the run, every bind is value-fresh. -/
def freshRun (st : List (String × ConnectedTarget) × List (String × String)) :
    List RelayEvent → Bool
  | [] => true
  | ev :: rest => freshBindOk st ev && freshRun (stepEvent st ev) rest

theorem mapHas_runEvents (evs : List RelayEvent)
    (st : List (String × ConnectedTarget) × List (String × String)) (sid : String) :
    mapHas (runEvents st evs).1 sid = lastIsAttach evs sid (mapHas st.1 sid) := by
  induction evs generalizing st with
  | nil => rfl
  | cons ev rest ih =>
    have hstep : runEvents st (ev :: rest) = runEvents (stepEvent st ev) rest := by
      simp [runEvents]
    rw [hstep, ih]
    cases ev with
    | attach s i =>
      rw [lastIsAttach]
      have : mapHas (stepEvent st (RelayEvent.attach s i)).1 sid =
          if s = sid then true else mapHas st.1 sid := by
        show mapHas (applyAttach st.1 s i) sid = _
        rw [applyAttach, mapHas_set]
        by_cases h : s = sid
        · rw [if_pos h, if_pos h.symm]
        · rw [if_neg h, if_neg (fun hh => h hh.symm)]
      rw [this]
    | detach s =>
      rw [lastIsAttach]
      have : mapHas (stepEvent st (RelayEvent.detach s)).1 sid =
          if s = sid then false else mapHas st.1 sid := by
        show mapHas (mapDelete st.1 s) sid = _
        rw [mapHas_delete]
        by_cases h : s = sid
        · rw [if_pos h, if_pos h.symm]
        · rw [if_neg h, if_neg (fun hh => h hh.symm)]
      rw [this]
    | bindPage n s =>
      rw [lastIsAttach]
      rfl

theorem mem_deleteFirstNameFor (pages : List (String × String)) (sid : String)
    (p : String × String) (hp : p ∈ deleteFirstNameFor pages sid) : p ∈ pages := by
  induction pages with
  | nil => simpa [deleteFirstNameFor] using hp
  | cons q rest ih =>
    obtain ⟨n, s⟩ := q
    by_cases h : s = sid
    · simp only [deleteFirstNameFor, if_pos h] at hp
      exact List.mem_cons_of_mem _ hp
    · simp only [deleteFirstNameFor, if_neg h] at hp
      rcases List.mem_cons.mp hp with h1 | h1
      · simp [h1]
      · exact List.mem_cons_of_mem _ (ih h1)

theorem deleteFirstNameFor_no_sid (pages : List (String × String)) (sid : String)
    (hnd : noDupVals pages = true) (p : String × String)
    (hp : p ∈ deleteFirstNameFor pages sid) : p.2 ≠ sid := by
  induction pages with
  | nil => simp [deleteFirstNameFor] at hp
  | cons q rest ih =>
    obtain ⟨n, s⟩ := q
    rw [noDupVals, Bool.and_eq_true] at hnd
    by_cases h : s = sid
    · subst h
      simp only [deleteFirstNameFor, if_pos rfl] at hp
      have := (List.all_eq_true.mp hnd.1) p hp
      simpa using this
    · simp only [deleteFirstNameFor, if_neg h] at hp
      rcases List.mem_cons.mp hp with h1 | h1
      · rw [h1]
        exact h
      · exact ih hnd.2 h1

theorem noDupVals_deleteFirstNameFor (pages : List (String × String)) (sid : String)
    (hnd : noDupVals pages = true) :
    noDupVals (deleteFirstNameFor pages sid) = true := by
  induction pages with
  | nil => rfl
  | cons q rest ih =>
    obtain ⟨n, s⟩ := q
    rw [noDupVals, Bool.and_eq_true] at hnd
    by_cases h : s = sid
    · simp only [deleteFirstNameFor, if_pos h]
      exact hnd.2
    · simp only [deleteFirstNameFor, if_neg h]
      rw [noDupVals, Bool.and_eq_true]
      refine ⟨?_, ih hnd.2⟩
      rw [List.all_eq_true]
      intro q hq
      exact (List.all_eq_true.mp hnd.1) q (mem_deleteFirstNameFor rest sid q hq)

theorem noDupVals_filter (pages : List (String × String))
    (f : String × String → Bool) (hnd : noDupVals pages = true) :
    noDupVals (pages.filter f) = true := by
  induction pages with
  | nil => rfl
  | cons q rest ih =>
    rw [noDupVals, Bool.and_eq_true] at hnd
    by_cases h : f q
    · rw [List.filter_cons_of_pos h, noDupVals, Bool.and_eq_true]
      refine ⟨?_, ih hnd.2⟩
      rw [List.all_eq_true]
      intro r hr
      exact (List.all_eq_true.mp hnd.1) r (List.mem_of_mem_filter hr)
    · rw [List.filter_cons_of_neg (by simpa using h)]
      exact ih hnd.2

theorem noDupVals_mapSet (m : List (String × String)) (k v : String)
    (hnd : noDupVals m = true) (hfresh : ∀ q ∈ m, q.2 ≠ v) :
    noDupVals (mapSet m k v) = true := by
  induction m with
  | nil => simp [mapSet, noDupVals]
  | cons q rest ih =>
    obtain ⟨k2, v2⟩ := q
    rw [noDupVals, Bool.and_eq_true] at hnd
    by_cases h : k2 = k
    · simp only [mapSet, if_pos h]
      rw [noDupVals, Bool.and_eq_true]
      refine ⟨?_, hnd.2⟩
      rw [List.all_eq_true]
      intro q hq
      have hne := hfresh q (List.mem_cons_of_mem _ hq)
      simp [hne]
    · simp only [mapSet, if_neg h]
      rw [noDupVals, Bool.and_eq_true]
      refine ⟨?_, ih hnd.2 (fun q hq => hfresh q (List.mem_cons_of_mem _ hq))⟩
      rw [List.all_eq_true]
      intro q hq
      rcases mem_mapSet rest k v q hq with h1 | h1
      · have hv2 : ¬v = v2 := by
          have := hfresh (k2, v2) (by simp)
          simp at this
          exact fun hh => this hh.symm
        rw [h1]
        simp [hv2]
      · have := (List.all_eq_true.mp hnd.1) q h1
        exact this

theorem applyBind_preserves (targets : List (String × ConnectedTarget))
    (pages : List (String × String)) (name sid : String)
    (hc : pages.all (fun p => mapHas targets p.2) = true)
    (hnd : noDupVals pages = true)
    (hf : (!mapHas targets sid || pages.all (fun q => !(q.2 == sid))) = true) :
    (applyBind targets pages name sid).all (fun p => mapHas targets p.2) = true ∧
    noDupVals (applyBind targets pages name sid) = true := by
  rw [applyBind]
  by_cases hsid : mapHas targets sid
  · rw [if_pos hsid]
    have hfresh : ∀ q ∈ pages, q.2 ≠ sid := by
      rw [Bool.or_eq_true] at hf
      rcases hf with hf | hf
      · simp [hsid] at hf
      · intro q hq
        have := (List.all_eq_true.mp hf) q hq
        simpa using this
    rcases hg : mapGet pages name with _ | s
    · simp only [hg]
      constructor
      · rw [List.all_eq_true]
        intro p hp
        rcases mem_mapSet _ name sid p hp with h1 | h1
        · rw [h1]
          simpa using hsid
        · exact (List.all_eq_true.mp hc) p h1
      · exact noDupVals_mapSet _ name sid hnd hfresh
    · simp only [hg]
      by_cases hh : mapHas targets s
      · rw [if_pos hh]
        constructor
        · rw [List.all_eq_true]
          intro p hp
          rcases mem_mapSet _ name sid p hp with h1 | h1
          · rw [h1]
            simpa using hsid
          · exact (List.all_eq_true.mp hc) p h1
        · exact noDupVals_mapSet _ name sid hnd hfresh
      · rw [if_neg hh]
        constructor
        · rw [List.all_eq_true]
          intro p hp
          rcases mem_mapSet _ name sid p hp with h1 | h1
          · rw [h1]
            simpa using hsid
          · exact (List.all_eq_true.mp hc) p (List.mem_of_mem_filter h1)
        · exact noDupVals_mapSet _ name sid (noDupVals_filter pages _ hnd)
            (fun q hq => hfresh q (List.mem_of_mem_filter hq))
  · rw [if_neg hsid]
    exact ⟨hc, hnd⟩

theorem inv_stepEvent (st : List (String × ConnectedTarget) × List (String × String))
    (ev : RelayEvent)
    (hc : pagesConsistent st = true) (hnd : noDupVals st.2 = true)
    (hf : freshBindOk st ev = true) :
    pagesConsistent (stepEvent st ev) = true ∧
    noDupVals (stepEvent st ev).2 = true := by
  obtain ⟨targets, pages⟩ := st
  rw [pagesConsistent] at hc
  cases ev with
  | attach s i =>
    refine ⟨?_, hnd⟩
    rw [pagesConsistent, List.all_eq_true]
    intro p hp
    have hprev := (List.all_eq_true.mp hc) p hp
    show mapHas (applyAttach targets s i) p.2 = true
    rw [applyAttach, mapHas_set]
    by_cases h : p.2 = s
    · rw [if_pos h]
    · rw [if_neg h]
      exact hprev
  | detach s =>
    constructor
    · rw [pagesConsistent, List.all_eq_true]
      intro p hp
      have hmem := mem_deleteFirstNameFor pages s p hp
      have hne := deleteFirstNameFor_no_sid pages s hnd p hp
      have hprev := (List.all_eq_true.mp hc) p hmem
      show mapHas (mapDelete targets s) p.2 = true
      rw [mapHas_delete, if_neg hne]
      exact hprev
    · exact noDupVals_deleteFirstNameFor pages s hnd
  | bindPage n sid =>
    exact applyBind_preserves targets pages n sid hc hnd hf

theorem inv_runEvents (evs : List RelayEvent)
    (st : List (String × ConnectedTarget) × List (String × String))
    (hc : pagesConsistent st = true) (hnd : noDupVals st.2 = true)
    (hf : freshRun st evs = true) :
    pagesConsistent (runEvents st evs) = true ∧
    noDupVals (runEvents st evs).2 = true := by
  induction evs generalizing st with
  | nil => exact ⟨hc, hnd⟩
  | cons ev rest ih =>
    rw [freshRun, Bool.and_eq_true] at hf
    have h1 := inv_stepEvent st ev hc hnd hf.1
    have hstep : runEvents st (ev :: rest) = runEvents (stepEvent st ev) rest := by
      simp [runEvents]
    rw [hstep]
    exact ih (stepEvent st ev) h1.1 h1.2 hf.2

/-- C3 (counterexample): two names can end up bound to the same session —
reachable when the extension answers the second `Target.createTarget`
with an already-registered `targetId`, so the page-creation scan binds the
second name to the same live session.  The detach handler then removes
only the first matching directory entry (`break` after the first match):
after detaching `S1` the registry no longer contains it, yet the name
`b` still resolves to `S1`, violating the claimed cascade invariant. -/
theorem detach_cascade_misses_second_name :
    mapGet (runEvents ([], []) [RelayEvent.attach "S1" demoInfo,
      RelayEvent.bindPage "a" "S1", RelayEvent.bindPage "b" "S1",
      RelayEvent.detach "S1"]).2 "b" = some "S1" ∧
    mapHas (runEvents ([], []) [RelayEvent.attach "S1" demoInfo,
      RelayEvent.bindPage "a" "S1", RelayEvent.bindPage "b" "S1",
      RelayEvent.detach "S1"]).1 "S1" = false := by
  constructor <;> decide

/-- C3 (amended): over every sequence of attach, detach and name-bind
events from the empty state, the Target Registry contains a session
exactly when its most recent attach/detach event was an attach (so never
a target whose most recent event was a detach); and provided no bind ever
binds a second name to a session that already has one (the detach
handler removes only the first matching name), the Named Page Directory
never resolves a name to a session absent from the Target Registry. -/
theorem attach_detach_registry_and_cascade (evs : List RelayEvent)
    (sid n s : String) (hf : freshRun ([], []) evs = true) :
    mapHas (runEvents ([], []) evs).1 sid = lastIsAttach evs sid false ∧
    (mapGet (runEvents ([], []) evs).2 n = some s →
      mapHas (runEvents ([], []) evs).1 s = true) := by
  constructor
  · have h := mapHas_runEvents evs ([], []) sid
    simpa [mapHas, mapGet] using h
  · intro hget
    have hinv := inv_runEvents evs ([], []) rfl rfl hf
    have hmem := mapGet_mem _ _ _ hget
    have hc := hinv.1
    rw [pagesConsistent] at hc
    have := (List.all_eq_true.mp hc) (n, s) hmem
    exact this

/-- C3 (witness for the amended theorem). -/
theorem attach_detach_registry_and_cascade_witness :
    (freshRun ([], []) [RelayEvent.attach "S1" demoInfo,
      RelayEvent.bindPage "a" "S1", RelayEvent.detach "S1",
      RelayEvent.attach "S2" demoInfo, RelayEvent.bindPage "a" "S2"] = true) ∧
    (mapHas (runEvents ([], []) [RelayEvent.attach "S1" demoInfo,
      RelayEvent.bindPage "a" "S1", RelayEvent.detach "S1",
      RelayEvent.attach "S2" demoInfo, RelayEvent.bindPage "a" "S2"]).1 "S1" =
      lastIsAttach [RelayEvent.attach "S1" demoInfo,
        RelayEvent.bindPage "a" "S1", RelayEvent.detach "S1",
        RelayEvent.attach "S2" demoInfo, RelayEvent.bindPage "a" "S2"] "S1" false ∧
    (mapGet (runEvents ([], []) [RelayEvent.attach "S1" demoInfo,
        RelayEvent.bindPage "a" "S1", RelayEvent.detach "S1",
        RelayEvent.attach "S2" demoInfo, RelayEvent.bindPage "a" "S2"]).2 "a" =
        some "S2" →
      mapHas (runEvents ([], []) [RelayEvent.attach "S1" demoInfo,
        RelayEvent.bindPage "a" "S1", RelayEvent.detach "S1",
        RelayEvent.attach "S2" demoInfo, RelayEvent.bindPage "a" "S2"]).1 "S2" =
        true)) :=
  ⟨by decide,
   attach_detach_registry_and_cascade [RelayEvent.attach "S1" demoInfo,
      RelayEvent.bindPage "a" "S1", RelayEvent.detach "S1",
      RelayEvent.attach "S2" demoInfo, RelayEvent.bindPage "a" "S2"]
     "S1" "a" "S2" (by decide)⟩

/-! ### C8: at-most-once attachment notifications

`sendAttachedToTarget` is called in broadcast form (extension attach
ingestion) and single-client form (`Target.setAutoAttach` loop,
`Target.attachToTarget`).  A trace is any interleaving of such passes. -/

/-- A registry entry whose stored info carries its own `targetId` (true
for every entry the attach handler builds). -/
def targetWF (t : ConnectedTarget) : Bool := t.targetInfo.targetId == t.targetId

/-- Number of `Target.attachedToTarget` frames sent to `clientId` for
`targetId` among the outputs. -/
def attachNotifCount (outs : List Output) (clientId targetId : String) : Nat :=
  (outs.filter (fun o => match o with
    | Output.toClient c (ClientMsg.attachedToTarget _ info _) =>
        c == clientId && info.targetId == targetId
    | _ => false)).length

/-- A sequence of `sendAttachedToTarget` passes (target, optional scoped
client). -/
def runNotifyTrace (clients : List (String × List String))
    (trace : List (ConnectedTarget × Option String)) :
    List (String × List String) × List Output :=
  match trace with
  | [] => (clients, [])
  | (t, cid) :: rest =>
    let r := sendAttachedToTarget clients t cid
    let rr := runNotifyTrace r.1 rest
    (rr.1, r.2 ++ rr.2)

/-- The `knownTargets` set of a client (empty when not registered). -/
def knownOf (clients : List (String × List String)) (c : String) : List String :=
  (mapGet clients c).getD []

theorem attachNotifCount_append (l1 l2 : List Output) (c tid : String) :
    attachNotifCount (l1 ++ l2) c tid =
      attachNotifCount l1 c tid + attachNotifCount l2 c tid := by
  simp [attachNotifCount, List.filter_append]

theorem mapHas_iff_keys (m : List (String × α)) (k : String) :
    mapHas m k = true ↔ k ∈ m.map Prod.fst := by
  induction m with
  | nil => simp [mapHas, mapGet]
  | cons p rest ih =>
    obtain ⟨k2, v2⟩ := p
    by_cases h : k2 = k
    · simp [mapHas, mapGet, h]
    · simp only [mapHas, mapGet, if_neg h, List.map_cons, List.mem_cons]
      rw [← mapHas]
      rw [ih]
      constructor
      · exact Or.inr
      · rintro (h1 | h1)
        · exact absurd h1.symm h
        · exact h1

theorem mapGet_eq_none_of_not_key (m : List (String × α)) (k : String)
    (h : ¬k ∈ m.map Prod.fst) : mapGet m k = none := by
  rcases hg : mapGet m k with _ | v
  · rfl
  · exact absurd ((mapHas_iff_keys m k).mp (by simp [mapHas, hg])) h

theorem mapSet_map_fst (m : List (String × α)) (k : String) (v : α)
    (h : mapHas m k = true) : (mapSet m k v).map Prod.fst = m.map Prod.fst := by
  induction m with
  | nil => simp [mapHas, mapGet] at h
  | cons p rest ih =>
    obtain ⟨k2, v2⟩ := p
    by_cases h2 : k2 = k
    · simp [mapSet, h2]
    · simp only [mapSet, if_neg h2, List.map_cons]
      rw [ih (by simpa [mapHas, mapGet, h2] using h)]

theorem notifyClient_fst (cl : String × List String) (t : ConnectedTarget) (w : Bool) :
    (notifyClient cl t w).1.1 = cl.1 := by
  rw [notifyClient]
  split <;> rfl

/-- Count and known-set bookkeeping of one `notifyClient` call. -/
theorem notifyClient_count (cl1 : String) (known : List String) (t : ConnectedTarget)
    (w : Bool) (c tid : String) (hWF : targetWF t = true) :
    (∀ x, x ∈ known → x ∈ (notifyClient (cl1, known) t w).1.2) ∧
    attachNotifCount (notifyClient (cl1, known) t w).2 c tid =
      (if c = cl1 ∧ tid ∈ (notifyClient (cl1, known) t w).1.2 ∧ tid ∉ known
       then 1 else 0) := by
  have hWF2 : t.targetInfo.targetId = t.targetId := by simpa [targetWF] using hWF
  rw [notifyClient]
  by_cases hcont : known.contains t.targetId
  · rw [if_pos hcont]
    refine ⟨fun x hx => hx, ?_⟩
    rw [if_neg]
    · rfl
    · rintro ⟨_, h1, h2⟩
      exact h2 h1
  · rw [if_neg hcont]
    refine ⟨fun x hx => List.mem_append_left _ hx, ?_⟩
    have hnotmem : t.targetId ∉ known := by simpa using hcont
    simp only [attachNotifCount, List.filter, hWF2]
    by_cases hc : cl1 = c
    · by_cases ht : t.targetId = tid
      · have hcond : (cl1 == c && (t.targetId == tid)) = true := by
          simp [hc, ht]
        rw [hcond]
        rw [if_pos ⟨hc.symm, by simp [ht.symm], by rw [← ht]; exact hnotmem⟩]
        rfl
      · have hcond : (cl1 == c && (t.targetId == tid)) = false := by
          simp [ht]
        rw [hcond]
        rw [if_neg]
        · rfl
        · rintro ⟨h1, h2, h3⟩
          rcases List.mem_append.mp h2 with h4 | h4
          · exact h3 h4
          · simp at h4
            exact ht h4.symm
    · have hcond : (cl1 == c && (t.targetId == tid)) = false := by
        simp [hc]
      rw [hcond]
      rw [if_neg]
      · rfl
      · rintro ⟨h1, _, _⟩
        exact hc h1.symm

theorem mapGet_cons (p : String × α) (rest : List (String × α)) (k : String) :
    mapGet (p :: rest) k = if p.1 = k then some p.2 else mapGet rest k := by
  obtain ⟨k2, v⟩ := p
  rfl

/-- Keys, known-set growth and notification count of one broadcast pass. -/
theorem broadcastAttached_facts (clients : List (String × List String))
    (t : ConnectedTarget) (w : Bool) (c tid : String)
    (hWF : targetWF t = true) (hnodup : (clients.map Prod.fst).Nodup) :
    ((broadcastAttached clients t w).1.map Prod.fst = clients.map Prod.fst) ∧
    (∀ x, x ∈ knownOf clients c → x ∈ knownOf (broadcastAttached clients t w).1 c) ∧
    (attachNotifCount (broadcastAttached clients t w).2 c tid =
      if tid ∈ knownOf (broadcastAttached clients t w).1 c ∧
          tid ∉ knownOf clients c then 1 else 0) := by
  induction clients with
  | nil =>
    refine ⟨rfl, fun x hx => hx, ?_⟩
    rw [if_neg]
    · rfl
    · rintro ⟨h1, _⟩
      simp [knownOf, broadcastAttached, mapGet] at h1
  | cons cl rest ih =>
    obtain ⟨cl1, known⟩ := cl
    have hnd2 : (rest.map Prod.fst).Nodup := (List.nodup_cons.mp hnodup).2
    have hnotin : cl1 ∉ rest.map Prod.fst := (List.nodup_cons.mp hnodup).1
    obtain ⟨ihkeys, ihmono, ihcount⟩ := ih hnd2
    have hnc := notifyClient_count cl1 known t w c tid hWF
    constructor
    · simp only [broadcastAttached, List.map_cons]
      rw [notifyClient_fst, ihkeys]
    constructor
    · intro x hx
      simp only [broadcastAttached]
      by_cases hc : cl1 = c
      · have hknown : knownOf ((cl1, known) :: rest) c = known := by
          simp [knownOf, mapGet, hc]
        rw [hknown] at hx
        have hx2 := hnc.1 x hx
        show x ∈ (mapGet ((notifyClient (cl1, known) t w).1 ::
          (broadcastAttached rest t w).1) c).getD []
        rw [mapGet_cons, notifyClient_fst, if_pos hc]
        simpa using hx2
      · have hknown : knownOf ((cl1, known) :: rest) c = knownOf rest c := by
          simp [knownOf, mapGet, hc]
        rw [hknown] at hx
        have hx2 := ihmono x hx
        show x ∈ (mapGet ((notifyClient (cl1, known) t w).1 ::
          (broadcastAttached rest t w).1) c).getD []
        rw [mapGet_cons, notifyClient_fst, if_neg hc]
        exact hx2
    · simp only [broadcastAttached]
      rw [attachNotifCount_append]
      have hknownR : knownOf ((notifyClient (cl1, known) t w).1 ::
          (broadcastAttached rest t w).1) c =
          (if cl1 = c then (notifyClient (cl1, known) t w).1.2
           else knownOf (broadcastAttached rest t w).1 c) := by
        rw [knownOf, mapGet_cons, notifyClient_fst]
        by_cases hc : cl1 = c
        · rw [if_pos hc, if_pos hc]
          rfl
        · rw [if_neg hc, if_neg hc]
          rfl
      by_cases hc : cl1 = c
      · subst hc
        have hknownL : knownOf ((cl1, known) :: rest) cl1 = known := by
          simp [knownOf, mapGet]
        have hknownR2 : knownOf ((notifyClient (cl1, known) t w).1 ::
            (broadcastAttached rest t w).1) cl1 =
            (notifyClient (cl1, known) t w).1.2 := by
          rw [hknownR, if_pos rfl]
        have hcount2 : attachNotifCount (broadcastAttached rest t w).2 cl1 tid = 0 := by
          rw [ihcount]
          rw [if_neg]
          rintro ⟨h1, _⟩
          have hnone : mapGet (broadcastAttached rest t w).1 cl1 = none := by
            apply mapGet_eq_none_of_not_key
            rw [ihkeys]
            exact hnotin
          simp [knownOf, hnone] at h1
        simp only [hcount2, hknownL, hknownR2, hnc.2, Nat.add_zero]
        by_cases hcond : tid ∈ (notifyClient (cl1, known) t w).1.2 ∧ tid ∉ known
        · rw [if_pos ⟨trivial, hcond.1, hcond.2⟩, if_pos hcond]
        · rw [if_neg (fun hh => hcond ⟨hh.2.1, hh.2.2⟩), if_neg hcond]
      · have hknownL : knownOf ((cl1, known) :: rest) c = knownOf rest c := by
          simp [knownOf, mapGet, hc]
        have hknownR2 : knownOf ((notifyClient (cl1, known) t w).1 ::
            (broadcastAttached rest t w).1) c =
            knownOf (broadcastAttached rest t w).1 c := by
          rw [hknownR, if_neg hc]
        have hcount1 : attachNotifCount (notifyClient (cl1, known) t w).2 c tid = 0 := by
          rw [hnc.2]
          rw [if_neg]
          rintro ⟨h1, _⟩
          exact hc h1.symm
        simp only [hcount1, hknownL, hknownR2, ihcount, Nat.zero_add]

/-- Keys, known-set growth and notification count of one
`sendAttachedToTarget` pass (broadcast or single-client). -/
theorem sendAttached_facts (clients : List (String × List String))
    (t : ConnectedTarget) (cid : Option String) (c tid : String)
    (hWF : targetWF t = true) (hnodup : (clients.map Prod.fst).Nodup) :
    ((sendAttachedToTarget clients t cid).1.map Prod.fst = clients.map Prod.fst) ∧
    (∀ x, x ∈ knownOf clients c →
      x ∈ knownOf (sendAttachedToTarget clients t cid).1 c) ∧
    (attachNotifCount (sendAttachedToTarget clients t cid).2 c tid =
      if tid ∈ knownOf (sendAttachedToTarget clients t cid).1 c ∧
          tid ∉ knownOf clients c then 1 else 0) := by
  rcases cid with _ | cid
  · exact broadcastAttached_facts clients t false c tid hWF hnodup
  · rcases hg : mapGet clients cid with _ | known
    · refine ⟨by simp [sendAttachedToTarget, hg], ?_, ?_⟩
      · intro x hx
        simpa [sendAttachedToTarget, hg] using hx
      · simp only [sendAttachedToTarget, hg]
        rw [if_neg]
        · rfl
        · rintro ⟨h1, h2⟩
          exact h2 h1
    · have hnc := notifyClient_count cid known t false c tid hWF
      have hreg : mapHas clients cid = true := by simp [mapHas, hg]
      refine ⟨?_, ?_, ?_⟩
      · simp only [sendAttachedToTarget, hg]
        exact mapSet_map_fst clients cid _ hreg
      · intro x hx
        simp only [sendAttachedToTarget, hg]
        by_cases hc : cid = c
        · subst hc
          have h1 : knownOf clients cid = known := by simp [knownOf, hg]
          rw [h1] at hx
          show x ∈ (mapGet (mapSet clients cid
            (notifyClient (cid, known) t false).1.2) cid).getD []
          rw [mapGet_set_self]
          simpa using hnc.1 x hx
        · show x ∈ (mapGet (mapSet clients cid
            (notifyClient (cid, known) t false).1.2) c).getD []
          rw [mapGet_set_other _ _ _ _ (fun hh => hc hh.symm)]
          exact hx
      · simp only [sendAttachedToTarget, hg]
        by_cases hc : cid = c
        · subst hc
          have hknownL : knownOf clients cid = known := by simp [knownOf, hg]
          have hknownR : knownOf (mapSet clients cid
              (notifyClient (cid, known) t false).1.2) cid =
              (notifyClient (cid, known) t false).1.2 := by
            simp [knownOf, mapGet_set_self]
          simp only [hnc.2, hknownL, hknownR, eq_self_iff_true, true_and]
        · have hknownR : knownOf (mapSet clients cid
              (notifyClient (cid, known) t false).1.2) c = knownOf clients c := by
            simp only [knownOf]
            rw [mapGet_set_other _ _ _ _ (fun hh => hc hh.symm)]
          have hcount1 : attachNotifCount
              (notifyClient (cid, known) t false).2 c tid = 0 := by
            rw [hnc.2, if_neg]
            rintro ⟨h1, _⟩
            exact hc h1.symm
          simp only [hcount1, hknownR]
          rw [if_neg]
          rintro ⟨h1, h2⟩
          exact h2 h1

/-- Keys, known-set growth and notification count of a whole trace of
notification passes. -/
theorem runNotifyTrace_facts (trace : List (ConnectedTarget × Option String))
    (clients : List (String × List String)) (c tid : String)
    (hWF : ∀ p ∈ trace, targetWF p.1 = true)
    (hnodup : (clients.map Prod.fst).Nodup) :
    ((runNotifyTrace clients trace).1.map Prod.fst = clients.map Prod.fst) ∧
    (∀ x, x ∈ knownOf clients c →
      x ∈ knownOf (runNotifyTrace clients trace).1 c) ∧
    (attachNotifCount (runNotifyTrace clients trace).2 c tid =
      if tid ∈ knownOf (runNotifyTrace clients trace).1 c ∧
          tid ∉ knownOf clients c then 1 else 0) := by
  induction trace generalizing clients with
  | nil =>
    refine ⟨rfl, fun x hx => hx, ?_⟩
    rw [if_neg]
    · rfl
    · rintro ⟨h1, h2⟩
      exact h2 h1
  | cons p rest ih =>
    obtain ⟨t, cid⟩ := p
    have hWFt : targetWF t = true := hWF (t, cid) (by simp)
    have hWFrest : ∀ q ∈ rest, targetWF q.1 = true :=
      fun q hq => hWF q (by simp [hq])
    obtain ⟨k1, m1, c1⟩ := sendAttached_facts clients t cid c tid hWFt hnodup
    have hnodup2 : (((sendAttachedToTarget clients t cid).1).map Prod.fst).Nodup := by
      rw [k1]
      exact hnodup
    obtain ⟨k2, m2, c2⟩ := ih (sendAttachedToTarget clients t cid).1 hWFrest hnodup2
    refine ⟨?_, ?_, ?_⟩
    · simp only [runNotifyTrace]
      rw [k2, k1]
    · intro x hx
      simp only [runNotifyTrace]
      exact m2 x (m1 x hx)
    · simp only [runNotifyTrace, attachNotifCount_append]
      rw [c1, c2]
      by_cases hinit : tid ∈ knownOf clients c
      · have hmid := m1 tid hinit
        have hfin := m2 tid hmid
        rw [if_neg (fun hh => hh.2 hinit), if_neg (fun hh => hh.2 hmid),
          if_neg (fun hh => hh.2 hinit)]
      · by_cases hmid : tid ∈ knownOf (sendAttachedToTarget clients t cid).1 c
        · have hfin := m2 tid hmid
          rw [if_pos ⟨hmid, hinit⟩, if_neg (fun hh => hh.2 hmid),
            if_pos ⟨hfin, hinit⟩]
        · by_cases hfin : tid ∈ knownOf (runNotifyTrace
              (sendAttachedToTarget clients t cid).1 rest).1 c
          · rw [if_neg (fun hh => hmid hh.1), if_pos ⟨hfin, hmid⟩,
              if_pos ⟨hfin, hinit⟩]
          · rw [if_neg (fun hh => hmid hh.1), if_neg (fun hh => hfin hh.1),
              if_neg (fun hh => hfin hh.1)]

/-- After a single-client pass for a registered client, the target is in
its known set. -/
theorem sendAttachedSingle_known (clients : List (String × List String))
    (t : ConnectedTarget) (c : String) (hreg : mapHas clients c = true) :
    t.targetId ∈ knownOf (sendAttachedToTarget clients t (some c)).1 c := by
  rcases hg : mapGet clients c with _ | known
  · simp [mapHas, hg] at hreg
  · simp only [sendAttachedToTarget, hg]
    show t.targetId ∈ (mapGet (mapSet clients c
      (notifyClient (c, known) t false).1.2) c).getD []
    rw [mapGet_set_self]
    simp only [Option.getD_some]
    rw [notifyClient]
    by_cases hcont : known.contains t.targetId
    · rw [if_pos hcont]
      simpa using hcont
    · rw [if_neg hcont]
      simp

/-- The `Target.setAutoAttach` loop (one single-client pass per live
target) leaves every live target in the requesting client's known set. -/
theorem runNotify_all_known (targets : List ConnectedTarget) :
    ∀ (clients : List (String × List String)) (c : String),
    mapHas clients c = true → (clients.map Prod.fst).Nodup →
    (∀ t ∈ targets, targetWF t = true) →
    ∀ t ∈ targets,
    t.targetId ∈ knownOf (runNotifyTrace clients
      (targets.map (fun t => (t, some c)))).1 c := by
  induction targets with
  | nil =>
    intro clients c _ _ _ t ht
    simp at ht
  | cons t0 rest ih =>
    intro clients c hreg hnodup hWF t ht
    simp only [List.map_cons, runNotifyTrace]
    have hWFt : targetWF t0 = true := hWF t0 (by simp)
    obtain ⟨k1, m1, _⟩ :=
      sendAttached_facts clients t0 (some c) c t0.targetId hWFt hnodup
    have hreg2 : mapHas (sendAttachedToTarget clients t0 (some c)).1 c = true := by
      rw [mapHas_iff_keys, k1, ← mapHas_iff_keys]
      exact hreg
    have hnodup2 :
        (((sendAttachedToTarget clients t0 (some c)).1).map Prod.fst).Nodup := by
      rw [k1]
      exact hnodup
    have hWFmap : ∀ q ∈ rest.map (fun t => (t, (some c : Option String))),
        targetWF q.1 = true := by
      intro q hq
      obtain ⟨t2, ht2, rfl⟩ := List.mem_map.mp hq
      exact hWF t2 (List.mem_cons_of_mem _ ht2)
    rcases List.mem_cons.mp ht with h1 | h1
    · subst h1
      have hk := sendAttachedSingle_known clients t c hreg
      obtain ⟨_, m2, _⟩ := runNotifyTrace_facts
        (rest.map (fun t => (t, some c)))
        (sendAttachedToTarget clients t (some c)).1 c t.targetId hWFmap hnodup2
      exact m2 _ hk
    · exact ih (sendAttachedToTarget clients t0 (some c)).1 c hreg2 hnodup2
        (fun q hq => hWF q (List.mem_cons_of_mem _ hq)) t h1

/-- C8: over any sequence of broadcast or single-client notification
passes, a connected client receives at most one attached-to-target
notification per target id; and a freshly connected client (empty known
set) that triggers the auto-attach loop over the currently-live targets
receives exactly one such notification for each live target id. -/
theorem attach_notification_once (clients : List (String × List String))
    (trace : List (ConnectedTarget × Option String)) (c tid : String)
    (targets : List ConnectedTarget)
    (hWFt : ∀ p ∈ trace, targetWF p.1 = true)
    (hWF2 : ∀ t ∈ targets, targetWF t = true)
    (hnodup : (clients.map Prod.fst).Nodup)
    (hreg : mapHas clients c = true)
    (hfreshc : knownOf clients c = [])
    (htid : tid ∈ targets.map (fun t => t.targetId)) :
    attachNotifCount (runNotifyTrace clients trace).2 c tid ≤ 1 ∧
    attachNotifCount (runNotifyTrace clients
      (targets.map (fun t => (t, some c)))).2 c tid = 1 := by
  constructor
  · rw [(runNotifyTrace_facts trace clients c tid hWFt hnodup).2.2]
    split
    · exact Nat.le_refl 1
    · exact Nat.zero_le 1
  · have hWFmap : ∀ q ∈ targets.map (fun t => (t, (some c : Option String))),
        targetWF q.1 = true := by
      intro q hq
      obtain ⟨t2, ht2, rfl⟩ := List.mem_map.mp hq
      exact hWF2 t2 ht2
    rw [(runNotifyTrace_facts (targets.map (fun t => (t, some c)))
      clients c tid hWFmap hnodup).2.2]
    obtain ⟨t, ht, rfl⟩ := List.mem_map.mp htid
    have hk := runNotify_all_known targets clients c hreg hnodup hWF2 t ht
    rw [if_pos ⟨hk, by simp [hfreshc]⟩]

/-- C8 (witness). -/
theorem attach_notification_once_witness :
    attachNotifCount (runNotifyTrace [("c", []), ("d", ["T9"])]
      [(sampleTarget, none), (sampleTarget, some "c")]).2 "c" "T1" ≤ 1 ∧
    attachNotifCount (runNotifyTrace [("c", []), ("d", ["T9"])]
      ([sampleTarget].map (fun t => (t, some "c")))).2 "c" "T1" = 1 :=
  attach_notification_once [("c", []), ("d", ["T9"])]
    [(sampleTarget, none), (sampleTarget, some "c")] "c" "T1" [sampleTarget]
    (by decide) (by decide) (by decide) (by decide) (by decide) (by decide)

end DevBrowser
